import Mathlib

/-!
Verification of the WebSense-AI form-filling chain
(`backend/chains/nodes.py`, `backend/chains/graph.py`, `backend/chains/state.py`).

The Python pipeline is shallowly embedded: the LangGraph state dict becomes the
structure `WState`, nodes become functions `WState → WState` (a node's returned
update dict is applied to the incoming state, all untouched keys persisting, which
is exactly LangGraph's merge of an update dict into the channel state), and the
two external LLM calls become explicit `Except`/response parameters (`.error e`
models the call raising an exception `e`, `.ok r` models a parsed JSON response).

The `re` patterns used by the sanitizer and the regex fallback extractor are
embedded as executable matchers with Python semantics: a search scans candidate
start positions left to right, and at a position the pattern components run in
order, greedy with backtracking (encoded with `Option.orElse` alternatives, or by
maximal-munch where no later component can match a character of the repeated
class, which makes maximal-munch exact).  Character classes are modelled on
ASCII: `\w` is `[A-Za-z0-9_]`, `\s` is `[ \t\n\r\x0b\x0c]`.  Floats are
modelled as `ℚ`.
-/

namespace WebSense

/-- `FieldData` from `state.py`: one extracted field.  `confidence` is `none`
when the key is absent from the dict (Python `.get("confidence", d)` then
yields the default).  `extra` holds any further keys of the per-field dict
(e.g. a `selectors` entry), which the Python code carries along untouched. -/
inductive JVal where
  | str (v : String)
  | num (v : ℚ)
  | arr (v : List String)
deriving Repr, DecidableEq

structure FieldData where
  value : String := ""
  confidence : Option ℚ := none
  source_text : String := ""
  extra : List (String × JVal) := []
deriving Repr, DecidableEq

/-- `PageField`: DOM field metadata from the scanner (`page_fields` entries).
A missing dict key is modelled as `""` (the Python code reads every key with
`.get(k, "")`). -/
structure PageField where
  id : String := ""
  name : String := ""
  label : String := ""
  placeholder : String := ""
  ariaLabel : String := ""
  autocomplete : String := ""
  type : String := "text"
  isRequired : Bool := false
  selector : String := ""
deriving Repr, DecidableEq

/-- One entry of `conversation_history`. -/
structure HistEntry where
  turn : Nat := 0
  role : String := ""
  content : String := ""
deriving Repr, DecidableEq

/-- One entry of the final payload's `fields_to_fill`. -/
structure FillEntry where
  value : String := ""
  confidence : ℚ := 0
  selectors : List String := []
  source_text : String := ""
deriving Repr, DecidableEq

/-- The `final_payload` dict assembled by `output_node`. -/
structure FillPayload where
  status : String := "success"
  session_id : String := ""
  fields_to_fill : List (String × FillEntry) := []
  missing_fields : List String := []
  needs_confirmation : Bool := false
  sensitive_detected : Bool := false
  summary : List (String × String) := []
deriving Repr, DecidableEq

/-- `WebSenseState` from `state.py`.  Dicts keyed by strings are association
lists (first entry wins on lookup, as keys are unique in the Python dicts). -/
structure WState where
  raw_transcript : String := ""
  page_fields : List PageField := []
  session_id : String := ""
  user_id : String := ""
  contains_sensitive : Bool := false
  sanitized_transcript : String := ""
  extracted_fields : List (String × FieldData) := []
  matched_selectors : List (String × List String) := []
  confidence_scores : List (String × ℚ) := []
  missing_fields : List String := []
  conversation_history : List HistEntry := []
  turn_count : Nat := 0
  clarification_question : String := ""
  user_response : String := ""
  needs_clarification : Bool := false
  correction_mode : Bool := false
  confirmed : Bool := false
  ready_to_fill : Bool := false
  final_payload : Option FillPayload := none
  error_message : String := ""
deriving Repr, DecidableEq

/-- First-match lookup in an association list (Python dict read). -/
def alookup {α : Type} (m : List (String × α)) (k : String) : Option α :=
  match m with
  | [] => none
  | (k', v) :: rest => if k' = k then some v else alookup rest k

/-! ## Character classes (ASCII model of Python `re` classes) -/

/-- Python `\w` (ASCII): letters, digits, underscore. -/
def isWordChar (c : Char) : Bool :=
  c.isAlphanum || c = '_'

/-- Python `\s` (ASCII): `[ \t\n\r\x0b\x0c]`. -/
def isSpaceChar (c : Char) : Bool :=
  c = ' ' || c = '\t' || c = '\n' || c = '\r' || c = '\x0b' || c = '\x0c'

/-- The class `[\s-]` used between credit-card digit groups. -/
def isSepChar (c : Char) : Bool :=
  isSpaceChar c || c = '-'

/-- Word-character test on an optional char (`none` = beyond the string ends,
which counts as non-word for `\b`). -/
def isWordOpt : Option Char → Bool
  | none => false
  | some c => isWordChar c

/-- `\b` at a position: previous char and next char differ in word-ness. -/
def atBoundary (prev : Option Char) (next : Option Char) : Bool :=
  isWordOpt prev != isWordOpt next

/-! ## Pattern-component combinators

Each component consumes from a `List Char` and passes the rest to a
continuation; failure is `none`.  `optClass` is a greedy optional single-class
char `X?` with backtracking (`try-with <|> try-without`, Python's preference
order for a greedy `?`). -/

/-- Consume exactly `n` chars satisfying `p` (e.g. `\d{n}`). -/
def exactly (p : Char → Bool) : Nat → List Char → Option (List Char)
  | 0, s => some s
  | _ + 1, [] => none
  | n + 1, c :: rest => if p c then exactly p n rest else none

/-- Greedy optional one-char class with backtracking: `X?`. -/
def optClass {α : Type} (p : Char → Bool) (s : List Char) (k : List Char → Option α) :
    Option α :=
  match s with
  | [] => k []
  | c :: rest => if p c then (k rest).orElse (fun _ => k s) else k s

/-- Consume one literal char. -/
def litChar (c : Char) (s : List Char) : Option (List Char) :=
  match s with
  | [] => none
  | c' :: rest => if c' = c then some rest else none

/-- Consume a case-insensitive literal (for `re.IGNORECASE` patterns; the
literals used are all lowercase ASCII). -/
def litCI : List Char → List Char → Option (List Char)
  | [], s => some s
  | _ :: _, [] => none
  | t :: ts, c :: rest => if c.toLower = t then litCI ts rest else none

/-- `\s+`, maximal-munch.  Exact for every use below: each use is followed by a
component that cannot match a space character, so backtracking to a shorter
run of spaces can never succeed. -/
def spacesPlus {α : Type} (s : List Char) (k : List Char → Option α) : Option α :=
  let r := s.dropWhile isSpaceChar
  if r.length = s.length then none else k r

/-! ## The four `SENSITIVE_PATTERNS` matchers

Each `xMatchAt prev s` tries the pattern anchored at the start of `s`, with
`prev` the char just before `s` in the scanned string (for `\b`), and returns
the number of chars matched. -/

/-- `CREDIT_CARD`: `\b\d{4}[\s-]?\d{4}[\s-]?\d{4}[\s-]?\d{4}\b`. -/
def ccMatchAt (prev : Option Char) (s : List Char) : Option Nat :=
  if atBoundary prev s.head? then
    (exactly Char.isDigit 4 s).bind fun r1 =>
    optClass isSepChar r1 fun r1' =>
    (exactly Char.isDigit 4 r1').bind fun r2 =>
    optClass isSepChar r2 fun r2' =>
    (exactly Char.isDigit 4 r2').bind fun r3 =>
    optClass isSepChar r3 fun r3' =>
    (exactly Char.isDigit 4 r3').bind fun rest =>
    if isWordOpt rest.head? then none else some (s.length - rest.length)
  else none

/-- `SSN`: `\b\d{3}-\d{2}-\d{4}\b`. -/
def ssnMatchAt (prev : Option Char) (s : List Char) : Option Nat :=
  if atBoundary prev s.head? then
    (exactly Char.isDigit 3 s).bind fun r1 =>
    (litChar '-' r1).bind fun r2 =>
    (exactly Char.isDigit 2 r2).bind fun r3 =>
    (litChar '-' r3).bind fun r4 =>
    (exactly Char.isDigit 4 r4).bind fun rest =>
    if isWordOpt rest.head? then none else some (s.length - rest.length)
  else none

/-- `PASSWORD`: `password\s+is\s+\S+` with `re.IGNORECASE` (no `\b`).
`\S+` is maximal-munch, exact because nothing follows it. -/
def pwdMatchAt (_prev : Option Char) (s : List Char) : Option Nat :=
  (litCI "password".data s).bind fun r1 =>
  spacesPlus r1 fun r2 =>
  (litCI "is".data r2).bind fun r3 =>
  spacesPlus r3 fun r4 =>
  let r5 := r4.dropWhile (fun c => !isSpaceChar c)
  if r5.length = r4.length then none else some (s.length - r5.length)

/-- `CVV`: `\bcvv\s+is\s+\d{3,4}\b` with `re.IGNORECASE`; `\d{3,4}` is greedy
(`\d{3}\d?`) with backtracking into the final `\b`. -/
def cvvMatchAt (prev : Option Char) (s : List Char) : Option Nat :=
  if atBoundary prev s.head? then
    (litCI "cvv".data s).bind fun r1 =>
    spacesPlus r1 fun r2 =>
    (litCI "is".data r2).bind fun r3 =>
    spacesPlus r3 fun r4 =>
    (exactly Char.isDigit 3 r4).bind fun r5 =>
    optClass Char.isDigit r5 fun rest =>
    if isWordOpt rest.head? then none else some (s.length - rest.length)
  else none

/-! ## `re.search` and `re.sub` -/

/-- `pattern.search(s) is not None`: try every start position left to right. -/
def searchGo (mA : Option Char → List Char → Option Nat) :
    Option Char → List Char → Bool
  | prev, s =>
    match s with
    | [] => (mA prev []).isSome
    | c :: rest => (mA prev s).isSome || searchGo mA (some c) rest

/-- `pattern.sub(tok, s)`: scan left to right, replace every (non-overlapping)
match by `tok`, resuming right after the matched text.  Structured with fuel
for structural recursion; `fuel ≥ s.length` is always sufficient because every
match of the patterns above consumes at least one char (a zero-length "match"
is conservatively treated as no match; the four patterns can never return 0). -/
def subGo (mA : Option Char → List Char → Option Nat) (tok : List Char) :
    Nat → Option Char → List Char → List Char
  | 0, _, s => s
  | _ + 1, _, [] => []
  | fuel + 1, prev, c :: rest =>
    match mA prev (c :: rest) with
    | some (n + 1) =>
        let newPrev := match ((c :: rest).take (n + 1)).getLast? with
          | some d => some d
          | none => prev
        tok ++ subGo mA tok fuel newPrev ((c :: rest).drop (n + 1))
    | some 0 => c :: subGo mA tok fuel (some c) rest
    | none => c :: subGo mA tok fuel (some c) rest

/-- `pattern.search` on a string, from the start. -/
def pySearch (mA : Option Char → List Char → Option Nat) (s : List Char) : Bool :=
  searchGo mA none s

/-- `pattern.sub(tok, s)` on a string, from the start. -/
def pySub (mA : Option Char → List Char → Option Nat) (tok : List Char)
    (s : List Char) : List Char :=
  subGo mA tok s.length none s

/-! ## `intake_node` -/

/-- One step of the `for data_type, pattern in SENSITIVE_PATTERNS.items()` loop:
if the pattern occurs, set the flag and substitute the redaction token. -/
def applyPattern (mA : Option Char → List Char → Option Nat) (dataType : String)
    (acc : Bool × List Char) : Bool × List Char :=
  if pySearch mA acc.2 then
    (true, pySub mA ("[" ++ dataType ++ "_REDACTED]").data acc.2)
  else acc

/-- The sanitization loop of `intake_node`, over the four patterns in dict
order: `CREDIT_CARD`, `SSN`, `PASSWORD`, `CVV`. -/
def sanitizeScan (raw : List Char) : Bool × List Char :=
  applyPattern cvvMatchAt "CVV"
    (applyPattern pwdMatchAt "PASSWORD"
      (applyPattern ssnMatchAt "SSN"
        (applyPattern ccMatchAt "CREDIT_CARD" (false, raw))))

/-- `intake_node`.  `freshId` stands for the `uuid.uuid4()` draw used when the
incoming state has no session id (the only non-deterministic input). -/
def intake_node (freshId : String) (st : WState) : WState :=
  let sid := if st.session_id = "" then freshId else st.session_id
  let scanned := sanitizeScan st.raw_transcript.data
  let newTurn := st.turn_count + 1
  { st with
    sanitized_transcript := String.mk scanned.2
    contains_sensitive := scanned.1
    turn_count := newTurn
    conversation_history := st.conversation_history ++
      [{ turn := newTurn, role := "user", content := String.mk scanned.2 }]
    session_id := sid }

/-! ## String helpers (Python `str` methods, ASCII model) -/

/-- Python `str.lower()`. -/
def pyLower (s : String) : String :=
  String.mk (s.data.map Char.toLower)

/-- Python `str.strip()` (default: strip whitespace from both ends). -/
def pyStrip (s : String) : String :=
  String.mk (((s.data.dropWhile isSpaceChar).reverse.dropWhile isSpaceChar).reverse)

/-- Python `str.replace(pat, repl)`: non-overlapping, left to right.  Fueled
structural recursion; `fuel ≥ s.length` suffices for non-empty `pat` (each step
consumes at least one char of `s`). -/
def replaceGo (pat repl : List Char) : Nat → List Char → List Char
  | 0, s => s
  | _ + 1, [] => []
  | fuel + 1, c :: rest =>
    if pat ≠ [] ∧ pat.isPrefixOf (c :: rest) then
      repl ++ replaceGo pat repl fuel ((c :: rest).drop pat.length)
    else
      c :: replaceGo pat repl fuel rest

/-- Python `str.replace` on strings. -/
def pyReplace (s pat repl : String) : String :=
  String.mk (replaceGo pat.data repl.data s.data.length s.data)

/-- Python `re.split(r cls+, s)` where the separator is a maximal run of chars
satisfying `p`; keeps the empty pieces produced at the ends, exactly like
`re.split`.  Fueled; `fuel ≥ l.length` suffices. -/
def splitRunsGo (p : Char → Bool) : Nat → List Char → List Char → List String
  | 0, acc, l => [String.mk (acc.reverse ++ l)]
  | _ + 1, acc, [] => [String.mk acc.reverse]
  | fuel + 1, acc, c :: rest =>
    if p c then
      String.mk acc.reverse :: splitRunsGo p fuel [] (rest.dropWhile p)
    else
      splitRunsGo p fuel (c :: acc) rest

/-- `re.split(r"[_\-\s]+", s)`. -/
def splitWords (s : String) : List String :=
  splitRunsGo (fun c => c = '_' || c = '-' || isSpaceChar c) (s.data.length + 1) [] s.data

/-- Substring containment on char lists. -/
def isInfixL (needle : List Char) : List Char → Bool
  | [] => needle.isEmpty
  | c :: rest => needle.isPrefixOf (c :: rest) || isInfixL needle rest

/-- Substring containment (Python `needle in hay`). -/
def strIn (needle hay : String) : Bool :=
  isInfixL needle.data hay.data

/-! ## `_normalize_field_name` -/

/-- The `mappings` synonym table of `_normalize_field_name`. -/
def fieldNameMappings : List (String × String) := [
  ("fullname", "name"), ("full_name", "name"), ("full name", "name"),
  ("firstname", "first_name"), ("first name", "first_name"), ("first", "first_name"),
  ("fname", "first_name"), ("given name", "first_name"), ("givenname", "first_name"),
  ("lastname", "last_name"), ("last name", "last_name"), ("last", "last_name"),
  ("lname", "last_name"), ("surname", "last_name"), ("familyname", "last_name"),
  ("family name", "last_name"),
  ("emailaddress", "email"), ("email_address", "email"), ("email address", "email"),
  ("e-mail", "email"), ("mail", "email"),
  ("phonenumber", "phone"), ("phone_number", "phone"), ("phone number", "phone"),
  ("telephone", "phone"), ("tel", "phone"), ("mobile", "phone"), ("cell", "phone"),
  ("cellphone", "phone"),
  ("streetaddress", "address"), ("street_address", "address"),
  ("street address", "address"), ("address1", "address"), ("addr", "address"),
  ("zipcode", "zip"), ("zip_code", "zip"), ("zip code", "zip"),
  ("postalcode", "zip"), ("postal_code", "zip"), ("postal code", "zip"),
  ("postcode", "zip"),
  ("organization", "company"), ("org", "company"), ("employer", "company")]

/-- `re.sub(r"([a-z])([A-Z])", r"\1_\2", name)`: insert `_` between a lowercase
and an uppercase letter; the match consumes both chars, so scanning resumes
after the uppercase letter (`"aBcD" → "a_Bc_D"`, `"aBC" → "a_BC"`). -/
def camelSnake : List Char → List Char
  | [] => []
  | [c] => [c]
  | a :: b :: rest =>
    if a.isLower && b.isUpper then a :: '_' :: b :: camelSnake rest
    else a :: camelSnake (b :: rest)

/-- `_normalize_field_name`. -/
def normalize_field_name (name : String) : String :=
  let lower := pyStrip (pyLower name)
  match alookup fieldNameMappings lower with
  | some v => v
  | none =>
    let snake := pyLower (String.mk (camelSnake name.data))
    match alookup fieldNameMappings snake with
    | some v => v
    | none => lower

/-! ## `_fields_match` -/

/-- The `autocomplete_map` of `_fields_match`. -/
def autocompleteMap : List (String × List String) := [
  ("given-name", ["first_name", "firstname", "fname", "first"]),
  ("family-name", ["last_name", "lastname", "lname", "last", "surname"]),
  ("name", ["name", "fullname", "full_name"]),
  ("email", ["email", "emailaddress", "email_address"]),
  ("tel", ["phone", "phonenumber", "phone_number", "telephone", "tel", "mobile"]),
  ("street-address", ["address", "streetaddress", "street_address", "address1"]),
  ("address-level2", ["city", "addresscity"]),
  ("address-level1", ["state", "province", "addressstate"]),
  ("postal-code", ["zip", "zipcode", "zip_code", "postalcode", "postal_code"]),
  ("country-name", ["country", "addresscountry"]),
  ("organization", ["company", "organization", "org"]),
  ("username", ["username", "user", "login"])]

/-- `_fields_match(raw_name, normalized_name, dom_id, dom_name,
dom_placeholder, dom_label, dom_autocomplete, dom_aria)`: the four matching
strategies, in source order. -/
def fields_match (raw_name normalized_name dom_id dom_name dom_placeholder
    dom_label dom_autocomplete dom_aria : String) : Bool :=
  let raw_lower := pyStrip (pyLower raw_name)
  let dom_id_lower := pyLower dom_id
  let dom_name_lower := pyLower dom_name
  let dom_placeholder_lower := pyLower dom_placeholder
  let dom_label_lower := pyLower dom_label
  let dom_autocomplete_lower := pyLower dom_autocomplete
  let dom_aria_lower := pyLower dom_aria
  -- Strategy 1: exact match on DOM name or id
  if dom_name_lower ≠ "" ∧ (dom_name_lower = raw_lower ∨ dom_name_lower = normalized_name) then
    true
  else if dom_id_lower ≠ "" ∧ (dom_id_lower = raw_lower ∨ dom_id_lower = normalized_name) then
    true
  -- Strategy 2: autocomplete semantic mapping (forward lookup)
  else if (match alookup autocompleteMap dom_autocomplete_lower with
           | some entries => entries.contains normalized_name || entries.contains raw_lower
           | none => false) then
    true
  -- Strategy 2 reverse: the field name maps to this autocomplete value
  else if autocompleteMap.any
      (fun e => (e.2.contains normalized_name || e.2.contains raw_lower) &&
                dom_autocomplete_lower == e.1) then
    true
  else
    -- Strategy 3: substring containment (the Python `search_terms` set is
    -- modelled as a list; only membership is used, and the loop is a
    -- disjunction over its elements, so iteration order is irrelevant)
    let search_terms := [normalized_name, pyReplace normalized_name "_" "",
      raw_lower, pyReplace raw_lower "_" "", pyReplace raw_lower "-" ""]
    let search_terms := search_terms.filter (· ≠ "")
    let dom_targets := [dom_id_lower, dom_name_lower, dom_placeholder_lower,
      dom_label_lower, dom_aria_lower]
    if search_terms.any (fun term =>
        3 ≤ term.data.length &&
        dom_targets.any (fun t => t ≠ "" && (strIn term t || strIn t term))) then
      true
    else
      -- Strategy 4: label / placeholder word subsets
      let name_words := (splitWords raw_lower).filter (· ≠ "")
      if 1 ≤ name_words.length then
        let label_words := splitWords dom_label_lower
        let placeholder_words := splitWords dom_placeholder_lower
        (!name_words.isEmpty && name_words.all (label_words.contains ·)) ||
        (!name_words.isEmpty && name_words.all (placeholder_words.contains ·))
      else
        false

/-! ## `_regex_fallback_extract` pattern matchers

The four fallback patterns of `_regex_fallback_extract`.  For repetitions of a
single character class followed by a component that cannot match a char of
that class, greedy matching with backtracking equals maximal-munch, which is
used where that argument applies (noted per component); where a later
component can match chars of the repeated class (the spoken-email pattern),
explicit longest-first backtracking (`btRun`) is used. -/

/-- A non-empty maximal run of `p` (`X+` where the following component cannot
match an `X` char). -/
def plusRun (p : Char → Bool) (s : List Char) : Option (List Char) :=
  let r := s.dropWhile p
  if r.length = s.length then none else some r

/-- `X+` with longest-first backtracking over the run length (for `X+` followed
by components that may match `X` chars). -/
def btRunGo {α : Type} (s : List Char) (k : List Char → Option α) : Nat → Option α
  | 0 => none
  | i + 1 => (k (s.drop (i + 1))).orElse fun _ => btRunGo s k i

def btRun {α : Type} (p : Char → Bool) (s : List Char) (k : List Char → Option α) :
    Option α :=
  btRunGo s k (s.length - (s.dropWhile p).length)

/-- `\s*`, maximal-munch (exact at each use below: the following component
cannot match a space). -/
def starSpaces {α : Type} (s : List Char) (k : List Char → Option α) : Option α :=
  k (s.dropWhile isSpaceChar)

/-- Class `[\w.+-]` (local part of the email patterns). -/
def isEmailLocalChar (c : Char) : Bool :=
  isWordChar c || c = '.' || c = '+' || c = '-'

/-- Class `[\w-]` (domain part). -/
def isDomainChar (c : Char) : Bool :=
  isWordChar c || c = '-'

/-- Class `[\w.-]` (tail of the email TLD part). -/
def isEmailTailChar (c : Char) : Bool :=
  isWordChar c || c = '.' || c = '-'

/-- Email pattern `[\w.+-]+@[\w-]+\.[\w.-]+` anchored at the start of `s`
(`@` is not in `[\w.+-]` and `.` is not in `[\w-]`, so each `+` is exact
maximal-munch).  Returns the number of chars matched. -/
def emailMatchAt (s : List Char) : Option Nat :=
  (plusRun isEmailLocalChar s).bind fun r1 =>
  (litChar '@' r1).bind fun r2 =>
  (plusRun isDomainChar r2).bind fun r3 =>
  (litChar '.' r3).bind fun r4 =>
  (plusRun isEmailTailChar r4).map fun rest => s.length - rest.length

/-- Class `[-.\s]` (phone separators). -/
def isPhoneSep (c : Char) : Bool :=
  c = '-' || c = '.' || isSpaceChar c

/-- The optional prefix `(?:\+?1[-.\s]?)?` of the phone pattern (greedy, with
backtracking). -/
def optPlusOne {α : Type} (s : List Char) (k : List Char → Option α) : Option α :=
  (optClass (· = '+') s fun r =>
    (litChar '1' r).bind fun r' =>
    optClass isPhoneSep r' k).orElse fun _ => k s

/-- Phone pattern `\b(?:\+?1[-.\s]?)?\(?\d{3}\)?[-.\s]?\d{3}[-.\s]?\d{4}\b`
anchored at the start of `s`. -/
def phoneMatchAt (prev : Option Char) (s : List Char) : Option Nat :=
  if atBoundary prev s.head? then
    optPlusOne s fun r1 =>
    optClass (· = '(') r1 fun r2 =>
    (exactly Char.isDigit 3 r2).bind fun r3 =>
    optClass (· = ')') r3 fun r4 =>
    optClass isPhoneSep r4 fun r5 =>
    (exactly Char.isDigit 3 r5).bind fun r6 =>
    optClass isPhoneSep r6 fun r7 =>
    (exactly Char.isDigit 4 r7).bind fun rest =>
    if isWordOpt rest.head? then none else some (s.length - rest.length)
  else none

/-- `[A-Z][a-z]+` under `re.IGNORECASE`: a letter followed by one or more
letters, i.e. a maximal letter run of length ≥ 2 (the star that follows
begins with `\s+`, which cannot match a letter, so maximal-munch is exact). -/
def letterRunTwo (s : List Char) : Option (List Char) :=
  let r := s.dropWhile Char.isAlpha
  if 2 ≤ s.length - r.length then some r else none

/-- The greedy star `(?:\s+[A-Z][a-z]+)*` of the name pattern: consume
repetitions while they match (nothing follows the star in the pattern, so no
backtracking into it is ever needed).  Fueled; each repetition consumes at
least one char, so `fuel ≥ s.length` is sufficient. -/
def nameStar : Nat → List Char → List Char
  | 0, s => s
  | fuel + 1, s =>
    match spacesPlus s (fun r => letterRunTwo r) with
    | some rest => nameStar fuel rest
    | none => s

/-- `name\s+is\s+([A-Z][a-z]+(?:\s+[A-Z][a-z]+)*)` (the part after the
optional `my`).  Returns `(rest at group start, rest after the match)`. -/
def nameTail (s : List Char) : Option (List Char × List Char) :=
  (litCI "name".data s).bind fun r1 =>
  spacesPlus r1 fun r2 =>
  (litCI "is".data r2).bind fun r3 =>
  spacesPlus r3 fun r4 =>
  (letterRunTwo r4).map fun r5 => (r4, nameStar r4.length r5)

/-- Name pattern `(?:my\s+)?name\s+is\s+([A-Z][a-z]+(?:\s+[A-Z][a-z]+)*)` with
`re.IGNORECASE`, anchored at the start of `s`.  Returns `(group0, group1)`. -/
def nameMatchAt (s : List Char) : Option (List Char × List Char) :=
  (((litCI "my".data s).bind fun r => spacesPlus r fun r' => nameTail r').orElse
    (fun _ => nameTail s)).map fun p =>
      (s.take (s.length - p.2.length), p.1.take (p.1.length - p.2.length))

/-- `(?:at|@)` (alternatives in source order; they are disjoint). -/
def atToken (s : List Char) : Option (List Char) :=
  (litCI "at".data s).orElse fun _ => litChar '@' s

/-- `(?:dot|\.)`. -/
def dotToken (s : List Char) : Option (List Char) :=
  (litCI "dot".data s).orElse fun _ => litChar '.' s

/-- The captured group `[\w.+-]+\s*(?:at|@)\s*[\w-]+\s*(?:dot|\.)\s*\w+` of
the spoken-email pattern.  `at`/`dot` consist of word chars, so the two runs
before them need genuine backtracking (`btRun`). -/
def spokenGroup (s : List Char) : Option (List Char) :=
  btRun isEmailLocalChar s fun a1 =>
  starSpaces a1 fun a2 =>
  (atToken a2).bind fun a3 =>
  starSpaces a3 fun a4 =>
  btRun isDomainChar a4 fun a5 =>
  starSpaces a5 fun a6 =>
  (dotToken a6).bind fun a7 =>
  starSpaces a7 fun a8 =>
  plusRun isWordChar a8

/-- Spoken-email pattern
`email\s+is\s+([\w.+-]+\s*(?:at|@)\s*[\w-]+\s*(?:dot|\.)\s*\w+)` with
`re.IGNORECASE`, anchored at the start of `s`.  Returns `(group0, group1)`. -/
def spokenMatchAt (s : List Char) : Option (List Char × List Char) :=
  (litCI "email".data s).bind fun r1 =>
  spacesPlus r1 fun r2 =>
  (litCI "is".data r2).bind fun r3 =>
  spacesPlus r3 fun r4 =>
  (spokenGroup r4).map fun rest =>
    (s.take (s.length - rest.length), r4.take (r4.length - rest.length))

/-- `re.search` for matchers without `\b` at the start: leftmost start wins. -/
def findFirst {α : Type} (mA : List Char → Option α) : List Char → Option α
  | [] => mA []
  | s@(_ :: rest) => (mA s).orElse fun _ => findFirst mA rest

/-- `re.search` for boundary-sensitive matchers, threading the previous char. -/
def findFirstB (mA : Option Char → List Char → Option Nat) :
    Option Char → List Char → Option (List Char)
  | prev, [] => (mA prev []).map fun _ => []
  | prev, s@(c :: rest) =>
    match mA prev s with
    | some n => some (s.take n)
    | none => findFirstB mA (some c) rest

/-- The `.replace` chain applied to the spoken-email capture:
`.replace(" at ", "@").replace("at ", "@").replace(" dot ", ".")`
`.replace("dot ", ".").replace(" ", "")`. -/
def cleanSpokenEmail (raw : String) : String :=
  pyReplace (pyReplace (pyReplace (pyReplace (pyReplace raw " at " "@")
    "at " "@") " dot " ".") "dot " ".") " " ""

/-- `_regex_fallback_extract`: builds the fields dict in source order (email
0.9, phone 0.85, name 0.8, then spoken email 0.7 only if no email yet). -/
def regex_fallback_extract (transcript : String) : List (String × FieldData) :=
  let t := transcript.data
  let l1 : List (String × FieldData) :=
    match findFirst (fun s => (emailMatchAt s).map (s.take ·)) t with
    | some m => [("email",
        { value := String.mk m, confidence := some (mkRat 9 10),
          source_text := String.mk m })]
    | none => []
  let l2 := l1 ++
    (match findFirstB phoneMatchAt none t with
     | some m => [("phone",
         { value := String.mk m, confidence := some (mkRat 85 100),
           source_text := String.mk m })]
     | none => [])
  let l3 := l2 ++
    (match findFirst nameMatchAt t with
     | some p => [("name",
         { value := pyStrip (String.mk p.2), confidence := some (mkRat 8 10),
           source_text := String.mk p.1 })]
     | none => [])
  l3 ++
    (match findFirst spokenMatchAt t, alookup l3 "email" with
     | some p, none => [("email",
         { value := cleanSpokenEmail (String.mk p.2), confidence := some (mkRat 7 10),
           source_text := String.mk p.1 })]
     | _, _ => [])

/-! ## `extract_node` -/

/-- The parsed JSON of the extraction LLM response (`_parse_llm_json` output
read with the defaults of `extract_node`; an unparseable response is the
record with all defaults, i.e. the empty dict). -/
structure ExtractResponse where
  extracted_fields : List (String × FieldData) := []
  missing_fields : List String := []
  needs_clarification : Bool := false
  clarification_question : String := ""
deriving Repr, DecidableEq

/-- Python dict merge `{**old, **upd}`: existing keys keep their position but
take the updating value; new keys are appended in order. -/
def mergeDict (old upd : List (String × FieldData)) : List (String × FieldData) :=
  (old.map fun p => (p.1, (alookup upd p.1).getD p.2)) ++
    upd.filter fun p => (alookup old p.1).isNone

/-- Python `repr` of a list of strings (for the history entry
`f"Extracted: {list(extracted.keys())}"`). -/
def pyStrListRepr (l : List String) : String :=
  "[" ++ String.intercalate ", " (l.map fun s => "\x27" ++ s ++ "\x27") ++ "]"

/-- `extract_node`.  `llm` is the external call: `.ok parsed` is a response
(already through `_parse_llm_json`), `.error e` is any raised exception with
message `e` (the `except` branch). -/
def extract_node (llm : Except String ExtractResponse) (st : WState) : WState :=
  match llm with
  | .ok parsed =>
    { st with
      extracted_fields := mergeDict st.extracted_fields parsed.extracted_fields
      missing_fields := parsed.missing_fields
      needs_clarification := parsed.needs_clarification
      clarification_question := parsed.clarification_question
      conversation_history := st.conversation_history ++
        [{ turn := st.turn_count, role := "assistant",
           content := "Extracted: " ++ pyStrListRepr (parsed.extracted_fields.map (·.1)) }]
      error_message := "" }
  | .error e =>
    { st with
      extracted_fields := mergeDict st.extracted_fields
        (regex_fallback_extract st.sanitized_transcript)
      missing_fields := st.page_fields.map fun f => if f.name ≠ "" then f.name else f.id
      needs_clarification := true
      clarification_question := "I had trouble understanding. Could you repeat your details?"
      error_message := "LLM extraction failed: " ++ e }

/-! ## `match_selectors_node` -/

/-- The `FIELD_SELECTORS` static catalog. -/
def FIELD_SELECTORS : List (String × List String) := [
  ("name", ["#name", "#fullName", "#full-name", "#full_name",
    "[name=\x27name\x27]", "[name=\x27fullName\x27]", "[name=\x27full_name\x27]",
    "[name=\x27full-name\x27]", "[autocomplete=\x27name\x27]",
    "input[placeholder*=\x27name\x27 i]", "input[aria-label*=\x27name\x27 i]"]),
  ("first_name", ["#firstName", "#first-name", "#first_name", "#fname",
    "[name=\x27firstName\x27]", "[name=\x27first_name\x27]", "[name=\x27fname\x27]",
    "[autocomplete=\x27given-name\x27]", "input[placeholder*=\x27first name\x27 i]"]),
  ("last_name", ["#lastName", "#last-name", "#last_name", "#lname",
    "[name=\x27lastName\x27]", "[name=\x27last_name\x27]", "[name=\x27lname\x27]",
    "[autocomplete=\x27family-name\x27]", "input[placeholder*=\x27last name\x27 i]"]),
  ("email", ["#email", "#emailAddress", "#email-address",
    "[name=\x27email\x27]", "[name=\x27emailAddress\x27]",
    "[type=\x27email\x27]", "[autocomplete=\x27email\x27]",
    "input[placeholder*=\x27email\x27 i]"]),
  ("phone", ["#phone", "#phoneNumber", "#phone-number", "#tel",
    "[name=\x27phone\x27]", "[name=\x27phoneNumber\x27]", "[name=\x27tel\x27]",
    "[type=\x27tel\x27]", "[autocomplete=\x27tel\x27]",
    "input[placeholder*=\x27phone\x27 i]"]),
  ("address", ["#address", "#streetAddress", "#street-address", "#address1",
    "[name=\x27address\x27]", "[name=\x27streetAddress\x27]", "[name=\x27address1\x27]",
    "[autocomplete=\x27street-address\x27]",
    "input[placeholder*=\x27address\x27 i]", "textarea[placeholder*=\x27address\x27 i]"]),
  ("city", ["#city", "#addressCity", "[name=\x27city\x27]", "[name=\x27addressCity\x27]",
    "[autocomplete=\x27address-level2\x27]", "input[placeholder*=\x27city\x27 i]"]),
  ("state", ["#state", "#addressState", "#province",
    "[name=\x27state\x27]", "[name=\x27addressState\x27]", "[name=\x27province\x27]",
    "[autocomplete=\x27address-level1\x27]",
    "input[placeholder*=\x27state\x27 i]", "select[name*=\x27state\x27 i]"]),
  ("zip", ["#zip", "#zipCode", "#zip-code", "#postalCode", "#postal-code",
    "[name=\x27zip\x27]", "[name=\x27zipCode\x27]", "[name=\x27postalCode\x27]",
    "[autocomplete=\x27postal-code\x27]",
    "input[placeholder*=\x27zip\x27 i]", "input[placeholder*=\x27postal\x27 i]"]),
  ("country", ["#country", "#addressCountry",
    "[name=\x27country\x27]", "[name=\x27addressCountry\x27]",
    "[autocomplete=\x27country\x27]", "[autocomplete=\x27country-name\x27]",
    "select[name*=\x27country\x27 i]", "input[placeholder*=\x27country\x27 i]"]),
  ("company", ["#company", "#organization", "#org",
    "[name=\x27company\x27]", "[name=\x27organization\x27]",
    "[autocomplete=\x27organization\x27]",
    "input[placeholder*=\x27company\x27 i]", "input[placeholder*=\x27organization\x27 i]"])]

/-- Insertion-order deduplication (model for iterating over the Python set
`{field_name, normalized_name, normalized_name.replace("_", "")}`; Python set
iteration order is unspecified, insertion order is one concretization — the
claims do not depend on tier-3 ordering). -/
def dedupKeep (l : List String) : List String :=
  l.foldl (fun acc x => if acc.contains x then acc else acc ++ [x]) []

/-- The tier-1 selector accumulation for one extracted field over the page
fields (`insert(0, page_selector)` then append `#id` / `[name='...']`,
deduplicated). -/
def tierOneSelectors (fname normalized : String) (pfs : List PageField) : List String :=
  pfs.foldl (fun sels pf =>
    if fields_match fname normalized pf.id pf.name pf.placeholder pf.label
        pf.autocomplete pf.ariaLabel then
      let sels := if pf.selector ≠ "" && !sels.contains pf.selector then
          pf.selector :: sels else sels
      let sels := if pf.id ≠ "" && !sels.contains ("#" ++ pf.id) then
          sels ++ ["#" ++ pf.id] else sels
      let nameSel := "[name=\x27" ++ pf.name ++ "\x27]"
      if pf.name ≠ "" && !sels.contains nameSel then sels ++ [nameSel] else sels
    else sels) []

/-- `match_selectors_node`. -/
def match_selectors_node (st : WState) : WState :=
  let results := st.extracted_fields.map fun p =>
    let normalized := normalize_field_name p.1
    let sels := tierOneSelectors p.1 normalized st.page_fields
    let sels := if sels.isEmpty then
        match alookup FIELD_SELECTORS normalized with
        | some l => l
        | none => []
      else sels
    let sels := if sels.isEmpty then
        (dedupKeep [p.1, normalized, pyReplace normalized "_" ""]).foldl
          (fun acc v => acc ++ [
            "[name*=\x27" ++ v ++ "\x27 i]", "[id*=\x27" ++ v ++ "\x27 i]",
            "[placeholder*=\x27" ++ v ++ "\x27 i]",
            "[aria-label*=\x27" ++ v ++ "\x27 i]",
            "[autocomplete*=\x27" ++ v ++ "\x27 i]"]) []
      else sels
    (p.1, sels, p.2.confidence.getD (mkRat 1 2))
  { st with
    matched_selectors := results.map fun r => (r.1, r.2.1)
    confidence_scores := results.map fun r => (r.1, r.2.2) }

/-! ## `confirm_node` -/

/-- `CONFIDENCE_THRESHOLD = 0.85`. -/
def CONFIDENCE_THRESHOLD : ℚ := mkRat 85 100

/-- The effective confidence used by `confirm_node`:
`confidence_scores.get(k, field_data.get("confidence", 0.5))`. -/
def effectiveConfidence (scores : List (String × ℚ)) (k : String) (fd : FieldData) : ℚ :=
  match alookup scores k with
  | some c => c
  | none => fd.confidence.getD (mkRat 1 2)

/-- Python `str.title()` (ASCII): uppercase a letter after a non-letter,
lowercase a letter after a letter. -/
def pyTitleGo : Bool → List Char → List Char
  | _, [] => []
  | prevAlpha, c :: rest =>
    if c.isAlpha then
      (if prevAlpha then c.toLower else c.toUpper) :: pyTitleGo true rest
    else c :: pyTitleGo false rest

def pyTitle (s : String) : String :=
  String.mk (pyTitleGo false s.data)

/-- `re.sub(r'[_\-]+', ' ', name)`: each maximal run of `_`/`-` becomes one
space.  Fueled; `fuel ≥ l.length` suffices. -/
def sepsToSpaceGo : Nat → List Char → List Char
  | 0, l => l
  | _ + 1, [] => []
  | fuel + 1, c :: rest =>
    if c = '_' || c = '-' then
      ' ' :: sepsToSpaceGo fuel (rest.dropWhile fun d => d = '_' || d = '-')
    else c :: sepsToSpaceGo fuel rest

/-- Dict insert with overwrite-in-place (Python `m[k] = v`). -/
def dinsert (m : List (String × String)) (k v : String) : List (String × String) :=
  if (alookup m k).isSome then m.map fun p => if p.1 = k then (k, v) else p
  else m ++ [(k, v)]

/-- The `field_label_map` built by `confirm_node` from the page fields. -/
def fieldLabelMap (pfs : List PageField) : List (String × String) :=
  pfs.foldl (fun m pf =>
    let label := if pf.label ≠ "" then pf.label
      else if pf.placeholder ≠ "" then pf.placeholder else pf.ariaLabel
    let m := if pf.id ≠ "" then dinsert m pf.id (if label ≠ "" then label else pf.id)
      else m
    if pf.name ≠ "" then dinsert m pf.name (if label ≠ "" then label else pf.name)
    else m) []

/-- `_pretty`: human label for a field key. -/
def prettyName (labelMap : List (String × String)) (name : String) : String :=
  match alookup labelMap name with
  | some l => if l ≠ name then l
      else pyTitle (pyStrip (String.mk (sepsToSpaceGo name.data.length name.data)))
  | none => pyTitle (pyStrip (String.mk (sepsToSpaceGo name.data.length name.data)))

/-- `confirm_node`.  (The `summary_lines` list the source builds is not part
of the returned update dict, hence not modelled.) -/
def confirm_node (st : WState) : WState :=
  if st.correction_mode then
    { st with needs_clarification := false, ready_to_fill := false }
  else
    let labelMap := fieldLabelMap st.page_fields
    let lowConfidenceFields := (st.extracted_fields.filter fun p =>
      decide (effectiveConfidence st.confidence_scores p.1 p.2 <
        CONFIDENCE_THRESHOLD)).map (·.1)
    let hasIssues := !lowConfidenceFields.isEmpty || !st.missing_fields.isEmpty
    let question := if hasIssues then
        let parts :=
          (if !lowConfidenceFields.isEmpty then
            ["I\x27m not sure about: " ++ String.intercalate ", "
              (lowConfidenceFields.map (prettyName labelMap))]
          else []) ++
          (if !st.missing_fields.isEmpty then
            ["Still missing: " ++ String.intercalate ", "
              (st.missing_fields.map (prettyName labelMap))]
          else [])
        String.intercalate ". " parts ++ ". Could you provide or confirm these?"
      else ""
    { st with
      needs_clarification := hasIssues
      clarification_question := question
      ready_to_fill := !hasIssues
      confirmed := !hasIssues }

/-! ## `correction_node` -/

/-- The parsed JSON of the correction LLM response. -/
structure CorrectionResponse where
  corrected_field : Option String := none
  new_value : Option String := none
  confidence : Option ℚ := none
deriving Repr, DecidableEq

/-- Python truthiness of an optional string (`None` and `""` are falsy). -/
def pyTruthy : Option String → Bool
  | none => false
  | some s => s ≠ ""

/-- The sanitization loop of `correction_node` over `user_response` (sub only,
no search / no flag, unlike `intake_node`). -/
def sanitizeCorrection (s : String) : String :=
  String.mk (pySub cvvMatchAt "[CVV_REDACTED]".data
    (pySub pwdMatchAt "[PASSWORD_REDACTED]".data
      (pySub ssnMatchAt "[SSN_REDACTED]".data
        (pySub ccMatchAt "[CREDIT_CARD_REDACTED]".data s.data))))

/-- The single-field dict write of `correction_node`
(`updated_fields[corrected_field] = {**old, "value": ..., "confidence": ...,`
`"source_text": ...}` on a copy of the dict): only the entry at `k` is
replaced, and only its three named keys; all other entries and all other
per-field keys are untouched. -/
def applyFieldCorrection (k v : String) (conf : ℚ) (srcText : String)
    (fields : List (String × FieldData)) : List (String × FieldData) :=
  fields.map fun p =>
    if p.1 = k then
      (p.1, { p.2 with value := v, confidence := some conf, source_text := srcText })
    else p

/-- `correction_node`.  `llm` is the external correction call (as in
`extract_node`). -/
def correction_node (llm : Except String CorrectionResponse) (st : WState) : WState :=
  if st.user_response = "" then
    { st with
      correction_mode := false
      error_message := "No correction input provided." }
  else
    let sanitized := sanitizeCorrection st.user_response
    match llm with
    | .error e =>
      { st with
        correction_mode := false
        error_message := "Correction processing failed: " ++ e
        needs_clarification := true
        clarification_question := "I had trouble processing the correction. Could you try again?" }
    | .ok parsed =>
      let confidence := parsed.confidence.getD (mkRat 9 10)
      let k := parsed.corrected_field.getD ""
      if pyTruthy parsed.corrected_field && pyTruthy parsed.new_value &&
          (alookup st.extracted_fields k).isSome then
        let v := parsed.new_value.getD ""
        { st with
          extracted_fields :=
            applyFieldCorrection k v confidence sanitized st.extracted_fields
          correction_mode := false
          conversation_history := st.conversation_history ++
            [{ turn := st.turn_count + 1, role := "user",
               content := "Correction: " ++ k ++ " -> " ++ v }]
          error_message := "" }
      else
        { st with
          correction_mode := false
          needs_clarification := true
          clarification_question := "I couldn\x27t identify which field to correct. Could you be more specific?" }

/-! ## `output_node` and the router -/

/-- `output_node`. -/
def output_node (st : WState) : WState :=
  let payload : FillPayload :=
    { status := "success"
      session_id := st.session_id
      fields_to_fill := st.extracted_fields.map fun p =>
        (p.1, { value := p.2.value
                confidence := (alookup st.confidence_scores p.1).getD
                  (p.2.confidence.getD (mkRat 1 2))
                selectors := (alookup st.matched_selectors p.1).getD []
                source_text := p.2.source_text })
      missing_fields := st.missing_fields
      needs_confirmation := false
      sensitive_detected := st.contains_sensitive
      summary := st.extracted_fields.map fun p => (p.1, p.2.value) }
  { st with final_payload := some payload }

/-- The targets of the conditional edge after `confirm` (`END` is
`RouteTarget.endTurn`: the graph pauses and returns to the user). -/
inductive RouteTarget where
  | correction
  | output
  | endTurn
deriving Repr, DecidableEq

/-- `route_after_confirm` from `graph.py`. -/
def route_after_confirm (st : WState) : RouteTarget :=
  if st.correction_mode then .correction
  else if st.needs_clarification then .endTurn
  else if st.ready_to_fill then .output
  else .endTurn

/-- A new invocation of the compiled graph on a persisted session: the six
keys of `initial_state` built by `invoke_form_filling` overwrite the
checkpointed channel values, everything else persists. -/
def startTurn (persisted : WState) (transcript : String) (pfs : List PageField)
    (sid uid uresp : String) (corr : Bool) : WState :=
  { persisted with
    raw_transcript := transcript
    page_fields := pfs
    session_id := sid
    user_id := uid
    user_response := uresp
    correction_mode := corr }

/-! ## States and inputs used by the concrete parts of the claims -/

/-- The last char of a list, or `prev` for the empty list (the character
preceding the current scan position after walking over the list). -/
def lastPrev (prev : Option Char) : List Char → Option Char
  | [] => prev
  | c :: rest => lastPrev (some c) rest

/-- The number of digit chars in a list. -/
def digitCount (s : List Char) : Nat :=
  (s.filter Char.isDigit).length

/-- Whether a char list contains a run of 4 or more consecutive digits. -/
def hasDigitRun4 : List Char → Bool
  | a :: b :: c :: d :: rest =>
    (a.isDigit && b.isDigit && c.isDigit && d.isDigit) ||
      hasDigitRun4 (b :: c :: d :: rest)
  | _ => false

/-- Two extracted fields with confidences 0.9 and 0.6, none missing. -/
def lowConfState : WState :=
  { extracted_fields := [
      ("name", { value := "Ahmed", confidence := some (mkRat 9 10) }),
      ("email", { value := "a@b.co", confidence := some (mkRat 6 10) })]
    confidence_scores := [("name", mkRat 9 10), ("email", mkRat 6 10)]
    missing_fields := [] }

/-- Two extracted fields with confidences 0.9 and 0.85 (both ≥ 0.85), none
missing. -/
def highConfState : WState :=
  { extracted_fields := [
      ("name", { value := "Ahmed", confidence := some (mkRat 9 10) }),
      ("email", { value := "a@b.co", confidence := some (mkRat 85 100) })]
    confidence_scores := [("name", mkRat 9 10), ("email", mkRat 85 100)]
    missing_fields := [] }

/-- A session state awaiting a correction; the email entry carries extra
per-field metadata (a `selectors` key) that a correction must preserve. -/
def corrState : WState :=
  { extracted_fields := [
      ("name", { value := "Ahmed Khan", confidence := some (mkRat 95 100),
                 source_text := "my name is Ahmed Khan" }),
      ("email", { value := "a@b.co", confidence := some (mkRat 9 10),
                  source_text := "a@b.co",
                  extra := [("selectors", JVal.arr ["#email"])] })]
    user_response := "change my email to x@y.co"
    correction_mode := true }

/-- A correction response targeting the email field. -/
def corrResp : CorrectionResponse :=
  { corrected_field := some "email", new_value := some "x@y.co",
    confidence := some (mkRat 95 100) }

/-- A correction response naming an existing field but with an empty new
value. -/
def corrRespEmptyValue : CorrectionResponse :=
  { corrected_field := some "email", new_value := some "",
    confidence := some (mkRat 1 2) }

/-- The page fields of the multi-turn demo session. -/
def demoPageFields : List PageField := [
  { id := "name", name := "name", label := "Name", isRequired := true,
    selector := "#name" },
  { id := "email", name := "email", label := "Email", type := "email",
    isRequired := true, selector := "#email" }]

/-- A fully-confident extraction response for turn 1 of the demo session. -/
def turn1Resp : ExtractResponse :=
  { extracted_fields := [
      ("name", { value := "Ahmed Khan", confidence := some (mkRat 95 100),
                 source_text := "my name is Ahmed Khan" }),
      ("email", { value := "ahmed@example.com", confidence := some (mkRat 92 100),
                  source_text := "ahmed@example.com" })]
    missing_fields := []
    needs_clarification := false }

/-- Turn 1 of the demo session after the confirm node. -/
def turn1AfterConfirm : WState :=
  confirm_node (match_selectors_node (extract_node (.ok turn1Resp)
    (intake_node "gen-1" (startTurn {} "my name is Ahmed Khan and email ahmed@example.com"
      demoPageFields "sess-1" "u1" "" false))))

/-- Turn 1 of the demo session at end of turn (routed to output). -/
def turn1End : WState :=
  output_node turn1AfterConfirm

/-- Turn 2 of the demo session, same thread: the persisted state is re-entered
at intake, and the extraction capability call raises. -/
def turn2AfterExtract : WState :=
  extract_node (.error "connection refused")
    (intake_node "gen-2" (startTurn turn1End "hello again" demoPageFields
      "sess-1" "u1" "" false))

/-- A state whose sanitized transcript feeds the regex fallback, with a
previously extracted email to be merged over. -/
def fallbackDemoState : WState :=
  { sanitized_transcript := "my name is Ahmed Khan"
    extracted_fields := [
      ("email", { value := "old@x.co", confidence := some (mkRat 9 10),
                  source_text := "old@x.co" })]
    page_fields := demoPageFields }

end WebSense

namespace WebSense

/-! ## Association-list lemmas -/

theorem alookup_append {α : Type} (a b : List (String × α)) (k : String) :
    alookup (a ++ b) k = (alookup a k).orElse fun _ => alookup b k := by
  induction a with
  | nil => simp [alookup]
  | cons p rest ih =>
    by_cases h : p.1 = k <;> simp [alookup, h, ih]

theorem alookup_map_getD (old upd : List (String × FieldData)) (k : String) :
    alookup (old.map fun p => (p.1, (alookup upd p.1).getD p.2)) k =
      (alookup old k).map fun v => (alookup upd k).getD v := by
  induction old with
  | nil => simp [alookup]
  | cons p rest ih =>
    obtain ⟨k0, v0⟩ := p
    by_cases h : k0 = k
    · subst h; simp [alookup, ih]
    · simp [alookup, h, ih]

theorem alookup_filter_isNone (old upd : List (String × FieldData)) (k : String) :
    alookup (upd.filter fun p => (alookup old p.1).isNone) k =
      if (alookup old k).isNone then alookup upd k else none := by
  induction upd with
  | nil => simp [alookup]
  | cons p rest ih =>
    obtain ⟨k0, v0⟩ := p
    by_cases h : k0 = k
    · subst h
      by_cases hf : (alookup old k0).isNone <;> simp [alookup, hf, ih]
    · by_cases hf : (alookup old k0).isNone <;> simp [alookup, h, hf, ih]

theorem alookup_mergeDict (old upd : List (String × FieldData)) (k : String) :
    alookup (mergeDict old upd) k = (alookup upd k).orElse fun _ => alookup old k := by
  rw [mergeDict, alookup_append, alookup_map_getD, alookup_filter_isNone]
  cases ho : alookup old k with
  | none => simp [ho]
  | some v =>
    cases hu : alookup upd k with
    | none => simp [ho, hu]
    | some u => simp [ho, hu]

/-- `applyFieldCorrection` at the corrected key: the old entry with exactly
`value`, `confidence` and `source_text` replaced (its `extra` metadata kept). -/
theorem alookup_applyFieldCorrection_self (k v : String) (conf : ℚ) (srcText : String)
    (l : List (String × FieldData)) :
    alookup (applyFieldCorrection k v conf srcText l) k =
      (alookup l k).map fun fd =>
        { fd with value := v, confidence := some conf, source_text := srcText } := by
  induction l with
  | nil => rfl
  | cons p rest ih =>
    obtain ⟨k0, v0⟩ := p
    by_cases h : k0 = k
    · subst h
      simp only [applyFieldCorrection, List.map_cons, if_pos rfl] at ih ⊢
      rw [alookup, alookup]
      simp
    · simp only [applyFieldCorrection, List.map_cons, if_neg h] at ih ⊢
      rw [alookup, alookup]
      simp [h, ih]

/-- `applyFieldCorrection` at any other key: untouched. -/
theorem alookup_applyFieldCorrection_other (k v : String) (conf : ℚ) (srcText : String)
    (l : List (String × FieldData)) (k' : String) (h : k' ≠ k) :
    alookup (applyFieldCorrection k v conf srcText l) k' = alookup l k' := by
  induction l with
  | nil => rfl
  | cons p rest ih =>
    obtain ⟨k0, v0⟩ := p
    by_cases hp : k0 = k
    · subst hp
      simp only [applyFieldCorrection, List.map_cons, if_pos rfl] at ih ⊢
      rw [alookup, alookup]
      simp [Ne.symm h, ih]
    · simp only [applyFieldCorrection, List.map_cons, if_neg hp] at ih ⊢
      rw [alookup, alookup]
      by_cases hp' : k0 = k' <;> simp [hp', ih]

/-- A filtered list is non-empty iff some element satisfies the predicate. -/
theorem filter_isEmpty_eq_false_iff {α : Type} (p : α → Bool) (l : List α) :
    (l.filter p).isEmpty = false ↔ ∃ a ∈ l, p a = true := by
  induction l with
  | nil => simp
  | cons x rest ih =>
    by_cases h : p x <;> simp [List.filter, h, ih]

/-- Mapping does not change emptiness. -/
theorem isEmpty_map_eq {α β : Type} (f : α → β) (l : List α) :
    (l.map f).isEmpty = l.isEmpty := by
  cases l <;> rfl

/-- `isEmpty = false` is the same as being non-nil. -/
theorem isEmpty_false_iff {α : Type} (l : List α) : l.isEmpty = false ↔ l ≠ [] := by
  cases l <;> simp

/-! ## Digit-count lemmas for the credit-card pattern

A credit-card match consumes exactly 16 digit chars (the optional separators
are non-digits), so the pattern cannot fire on any string with fewer than 16
digits. -/

theorem digit_isWordChar {c : Char} (h : c.isDigit = true) : isWordChar c = true := by
  simp [isWordChar, Char.isAlphanum, h]

theorem digit_not_hyphen {c : Char} (h : c.isDigit = true) : ¬(c = '-') := by
  rintro rfl
  exact absurd h (by decide)

theorem isSep_not_digit {c : Char} (h : isSepChar c = true) : c.isDigit = false := by
  simp only [isSepChar, isSpaceChar, Bool.or_eq_true, decide_eq_true_eq] at h
  rcases h with ((((((h | h) | h) | h) | h) | h) | h) <;> subst h <;> decide

theorem digitCount_cons (c : Char) (rest : List Char) :
    digitCount (c :: rest) =
      if c.isDigit then digitCount rest + 1 else digitCount rest := by
  by_cases h : c.isDigit <;> simp [digitCount, List.filter, h]

theorem digitCount_cons_le (c : Char) (rest : List Char) :
    digitCount rest ≤ digitCount (c :: rest) := by
  rw [digitCount_cons]
  split <;> omega

theorem exactly_digitCount (m : Nat) (s r : List Char)
    (h : exactly Char.isDigit m s = some r) : digitCount s = m + digitCount r := by
  induction m generalizing s with
  | zero =>
    rw [exactly] at h
    cases h
    omega
  | succ n ih =>
    cases s with
    | nil => cases h
    | cons c rest =>
      rw [exactly] at h
      by_cases hdc : c.isDigit
      · rw [if_pos hdc] at h
        rw [digitCount_cons, if_pos hdc, ih rest h]
        omega
      · rw [if_neg hdc] at h
        cases h

theorem optClass_sep_digitCount {α : Type} (s : List Char) (k : List Char → Option α)
    (x : α) (h : optClass isSepChar s k = some x) :
    ∃ s', k s' = some x ∧ digitCount s' = digitCount s := by
  cases s with
  | nil => exact ⟨[], h, rfl⟩
  | cons c rest =>
    rw [optClass] at h
    by_cases hc : isSepChar c
    · rw [if_pos hc] at h
      cases hk : k rest with
      | some y =>
        rw [hk] at h
        simp only [Option.orElse] at h
        cases h
        exact ⟨rest, hk, by rw [digitCount_cons, if_neg (by simp [isSep_not_digit hc])]⟩
      | none =>
        rw [hk] at h
        simp only [Option.orElse] at h
        exact ⟨c :: rest, h, rfl⟩
    · rw [if_neg hc] at h
      exact ⟨c :: rest, h, rfl⟩

theorem ccMatchAt_min_digits (prev : Option Char) (s : List Char) (n : Nat)
    (h : ccMatchAt prev s = some n) : 16 ≤ digitCount s := by
  rw [ccMatchAt] at h
  split at h
  case isFalse => cases h
  case isTrue =>
    rcases Option.bind_eq_some.mp h with ⟨r1, h1, h⟩
    rcases optClass_sep_digitCount _ _ _ h with ⟨r1', h, e1⟩
    rcases Option.bind_eq_some.mp h with ⟨r2, h2, h⟩
    rcases optClass_sep_digitCount _ _ _ h with ⟨r2', h, e2⟩
    rcases Option.bind_eq_some.mp h with ⟨r3, h3, h⟩
    rcases optClass_sep_digitCount _ _ _ h with ⟨r3', h, e3⟩
    rcases Option.bind_eq_some.mp h with ⟨r4, h4, h⟩
    have c1 := exactly_digitCount _ _ _ h1
    have c2 := exactly_digitCount _ _ _ h2
    have c3 := exactly_digitCount _ _ _ h3
    have c4 := exactly_digitCount _ _ _ h4
    omega

theorem searchGo_cc_false (s : List Char) : ∀ prev, digitCount s < 16 →
    searchGo ccMatchAt prev s = false := by
  induction s with
  | nil =>
    intro prev h
    rw [searchGo]
    cases hm : ccMatchAt prev [] with
    | none => simp
    | some n =>
      have := ccMatchAt_min_digits _ _ _ hm
      simp [digitCount] at this
  | cons c rest ih =>
    intro prev h
    rw [searchGo]
    cases hm : ccMatchAt prev (c :: rest) with
    | none =>
      simp only [hm, Option.isSome_none, Bool.false_or]
      exact ih (some c) (lt_of_le_of_lt (digitCount_cons_le c rest) h)
    | some n =>
      have := ccMatchAt_min_digits _ _ _ hm
      omega

/-! ## C7: SSN-shaped vs phone-shaped digit groups -/

theorem ssn_match_shape (a b c d e f g h i : Char)
    (ha : a.isDigit = true) (hb : b.isDigit = true) (hc : c.isDigit = true)
    (hd : d.isDigit = true) (he : e.isDigit = true) (hf : f.isDigit = true)
    (hg : g.isDigit = true) (hh : h.isDigit = true) (hi : i.isDigit = true) :
    ssnMatchAt none [a, b, c, '-', d, e, '-', f, g, h, i] = some 11 := by
  simp [ssnMatchAt, atBoundary, isWordOpt, exactly, litChar, ha, hb, hc, hd, he, hf,
    hg, hh, hi, digit_isWordChar ha]

/-- The full sanitizer pass over a standalone `NNN-NN-NNNN` token: the
credit-card pattern cannot fire (only 9 digits), the SSN pattern replaces the
whole token, and the password / CVV patterns find nothing in the redaction
token. -/
theorem ssnShape_sanitize (a b c d e f g h i : Char)
    (ha : a.isDigit = true) (hb : b.isDigit = true) (hc : c.isDigit = true)
    (hd : d.isDigit = true) (he : e.isDigit = true) (hf : f.isDigit = true)
    (hg : g.isDigit = true) (hh : h.isDigit = true) (hi : i.isDigit = true) :
    sanitizeScan [a, b, c, '-', d, e, '-', f, g, h, i] =
      (true, "[SSN_REDACTED]".data) := by
  have hcount : digitCount [a, b, c, '-', d, e, '-', f, g, h, i] < 16 := by
    simp [digitCount, List.filter, ha, hb, hc, hd, he, hf, hg, hh, hi]
  have hccs : pySearch ccMatchAt [a, b, c, '-', d, e, '-', f, g, h, i] = false :=
    searchGo_cc_false _ none hcount
  have hm := ssn_match_shape a b c d e f g h i ha hb hc hd he hf hg hh hi
  have hsub : pySub ssnMatchAt "[SSN_REDACTED]".data
      [a, b, c, '-', d, e, '-', f, g, h, i] = "[SSN_REDACTED]".data := by
    simp [pySub, subGo, hm]
  have hsearch : pySearch ssnMatchAt [a, b, c, '-', d, e, '-', f, g, h, i] = true := by
    simp [pySearch, searchGo, hm]
  have s1 : applyPattern ccMatchAt "CREDIT_CARD"
      (false, [a, b, c, '-', d, e, '-', f, g, h, i]) =
      (false, [a, b, c, '-', d, e, '-', f, g, h, i]) := by
    rw [applyPattern]
    simp [hccs]
  have s2 : applyPattern ssnMatchAt "SSN"
      (false, [a, b, c, '-', d, e, '-', f, g, h, i]) =
      (true, "[SSN_REDACTED]".data) := by
    rw [applyPattern]
    simp only [hsearch, if_true]
    rw [show ("[" ++ "SSN" ++ "_REDACTED]").data = "[SSN_REDACTED]".data from rfl, hsub]
  rw [sanitizeScan, s1, s2]
  decide

/-- C7: a digit substring shaped `NNN-NN-NNNN` triggers the SSN redaction
rule in the intake sanitizer — it is replaced by `[SSN_REDACTED]` and
`contains_sensitive` becomes true — while a phone-shaped `NNN-NNN-NNNN` never
matches the SSN pattern at any position; concretely, `123-45-6789` inside a
transcript is redacted while `123-456-7890` passes through untouched. -/
theorem ssn_rule_shape_spec (a b c d e f g h i j : Char)
    (ha : a.isDigit = true) (hb : b.isDigit = true) (hc : c.isDigit = true)
    (hd : d.isDigit = true) (he : e.isDigit = true) (hf : f.isDigit = true)
    (hg : g.isDigit = true) (hh : h.isDigit = true) (hi : i.isDigit = true)
    (hj : j.isDigit = true) :
    (intake_node "sid" { raw_transcript := ⟨[a, b, c, '-', d, e, '-', f, g, h, i]⟩ }
      ).contains_sensitive = true ∧
    (intake_node "sid" { raw_transcript := ⟨[a, b, c, '-', d, e, '-', f, g, h, i]⟩ }
      ).sanitized_transcript = "[SSN_REDACTED]" ∧
    pySearch ssnMatchAt [a, b, c, '-', d, e, f, '-', g, h, i, j] = false ∧
    (intake_node "sid" { raw_transcript := "my ssn is 123-45-6789" }
      ).sanitized_transcript = "my ssn is [SSN_REDACTED]" ∧
    (intake_node "sid" { raw_transcript := "my ssn is 123-45-6789" }
      ).contains_sensitive = true ∧
    (intake_node "sid" { raw_transcript := "call me at 123-456-7890" }
      ).sanitized_transcript = "call me at 123-456-7890" ∧
    (intake_node "sid" { raw_transcript := "call me at 123-456-7890" }
      ).contains_sensitive = false := by
  have hsan := ssnShape_sanitize a b c d e f g h i ha hb hc hd he hf hg hh hi
  refine ⟨?_, ?_, ?_, by decide, by decide, by decide, by decide⟩
  · show (sanitizeScan [a, b, c, '-', d, e, '-', f, g, h, i]).1 = true
    rw [hsan]
  · show String.mk (sanitizeScan [a, b, c, '-', d, e, '-', f, g, h, i]).2 =
      "[SSN_REDACTED]"
    rw [hsan]
  · simp [pySearch, searchGo, ssnMatchAt, atBoundary, isWordOpt, exactly, litChar,
      ha, hb, hc, hd, he, hf, hg, hh, hi, hj,
      digit_isWordChar ha, digit_isWordChar hb, digit_isWordChar hc,
      digit_isWordChar hd, digit_isWordChar he, digit_isWordChar hf,
      digit_isWordChar hg, digit_isWordChar hh, digit_isWordChar hi,
      digit_isWordChar hj, digit_not_hyphen hf, digit_not_hyphen hi,
      digit_not_hyphen hj]

theorem ssn_rule_shape_spec_witness :
    (intake_node "sid"
      { raw_transcript := ⟨['1', '2', '3', '-', '4', '5', '-', '6', '7', '8', '9']⟩ }
      ).contains_sensitive = true ∧
    (intake_node "sid"
      { raw_transcript := ⟨['1', '2', '3', '-', '4', '5', '-', '6', '7', '8', '9']⟩ }
      ).sanitized_transcript = "[SSN_REDACTED]" ∧
    pySearch ssnMatchAt ['1', '2', '3', '-', '4', '5', '6', '-', '7', '8', '9', '0'] =
      false := by
  have h := ssn_rule_shape_spec '1' '2' '3' '4' '5' '6' '7' '8' '9' '0'
    (by decide) (by decide) (by decide) (by decide) (by decide) (by decide)
    (by decide) (by decide) (by decide) (by decide)
  exact ⟨h.1, h.2.1, h.2.2.1⟩

/-! ## C6: credit-card redaction

The lemmas below track the `re.sub` scan of the `CREDIT_CARD` pattern over a
transcript `pre ++ number ++ post`: no match can start inside a digit-free
`pre`, the match at the number's start consumes exactly the grouped 16-digit
number (each group-separator case computed explicitly), and the scan then
continues in `post`.  Substitution with a digit-free replacement token keeps a
digit-free text digit-free, which settles the no-4-digit-run-survives part
when `pre` and `post` carry no digits. -/

theorem isWordOpt_some (c : Char) : isWordOpt (some c) = isWordChar c := rfl

theorem isWordOpt_none : isWordOpt none = false := rfl

theorem ccMatchAt_nonDigit_head (prev : Option Char) (x : Char) (r : List Char)
    (hx : x.isDigit = false) : ccMatchAt prev (x :: r) = none := by
  rw [ccMatchAt]
  split
  · simp [exactly, hx]
  · rfl

theorem lastPrev_cons (prev : Option Char) (c : Char) (rest : List Char) :
    lastPrev prev (c :: rest) = lastPrev (some c) rest := rfl

theorem searchGo_skip_nondigit (pre : List Char) : ∀ (t : List Char) (prev : Option Char),
    (∀ c ∈ pre, c.isDigit = false) →
    searchGo ccMatchAt prev (pre ++ t) = searchGo ccMatchAt (lastPrev prev pre) t := by
  induction pre with
  | nil => intro t prev _; rfl
  | cons c rest ih =>
    intro t prev hpre
    rw [List.cons_append, searchGo]
    rw [ccMatchAt_nonDigit_head _ _ _ (hpre c (by simp))]
    simp only [Option.isSome_none, Bool.false_or]
    rw [ih t (some c) (fun c' hc' => hpre c' (List.mem_cons_of_mem c hc')), lastPrev_cons]

theorem subGo_skip_nondigit (tok : List Char) (pre : List Char) :
    ∀ (fuel : Nat) (t : List Char) (prev : Option Char),
    pre.length ≤ fuel → (∀ c ∈ pre, c.isDigit = false) →
    subGo ccMatchAt tok fuel prev (pre ++ t) =
      pre ++ subGo ccMatchAt tok (fuel - pre.length) (lastPrev prev pre) t := by
  induction pre with
  | nil => intro fuel t prev _ _; simp [lastPrev]
  | cons c rest ih =>
    intro fuel t prev hf hpre
    cases fuel with
    | zero => simp at hf
    | succ f =>
      rw [List.cons_append, subGo]
      rw [ccMatchAt_nonDigit_head _ _ _ (hpre c (by simp))]
      rw [ih f t (some c) (by simpa using hf)
        (fun c' hc' => hpre c' (List.mem_cons_of_mem c hc')), lastPrev_cons]
      simp [Nat.succ_sub_succ]

theorem subGo_cc_nodigit (tok : List Char) : ∀ (fuel : Nat) (s : List Char)
    (prev : Option Char), (∀ c ∈ s, c.isDigit = false) →
    subGo ccMatchAt tok fuel prev s = s := by
  intro fuel
  induction fuel with
  | zero => intro s prev _; rfl
  | succ f ih =>
    intro s prev hs
    cases s with
    | nil => rfl
    | cons c rest =>
      rw [subGo, ccMatchAt_nonDigit_head _ _ _ (hs c (by simp))]
      rw [ih rest (some c) (fun c' hc' => hs c' (List.mem_cons_of_mem c hc'))]

theorem subGo_nodigit_output (mA : Option Char → List Char → Option Nat)
    (tok : List Char) (htok : ∀ c ∈ tok, c.isDigit = false) :
    ∀ (fuel : Nat) (s : List Char) (prev : Option Char),
    (∀ c ∈ s, c.isDigit = false) →
    ∀ c ∈ subGo mA tok fuel prev s, c.isDigit = false := by
  intro fuel
  induction fuel with
  | zero => intro s prev hs; exact hs
  | succ f ih =>
    intro s prev hs
    cases s with
    | nil => intro c hc; cases hc
    | cons c0 rest =>
      rw [subGo]
      cases hm : mA prev (c0 :: rest) with
      | none =>
        intro c hc
        rcases List.mem_cons.mp hc with rfl | hc'
        · exact hs c (by simp)
        · exact ih rest (some c0) (fun x hx => hs x (List.mem_cons_of_mem c0 hx)) c hc'
      | some n =>
        cases n with
        | zero =>
          intro c hc
          rcases List.mem_cons.mp hc with rfl | hc'
          · exact hs c (by simp)
          · exact ih rest (some c0) (fun x hx => hs x (List.mem_cons_of_mem c0 hx)) c hc'
        | succ m =>
          intro c hc
          rcases List.mem_append.mp hc with hc' | hc'
          · exact htok c hc'
          · exact ih _ _ (fun x hx => hs x (List.drop_subset _ _ hx)) c hc'

theorem hasDigitRun4_eq_false (l : List Char) (h : ∀ c ∈ l, c.isDigit = false) :
    hasDigitRun4 l = false := by
  induction l using hasDigitRun4.induct with
  | case1 a b c d rest ih =>
    rw [hasDigitRun4]
    have hrest : ∀ c' ∈ b :: c :: d :: rest, c'.isDigit = false :=
      fun c' hc' => h c' (List.mem_cons_of_mem a hc')
    simp [h a (by simp), ih hrest]
  | case2 l hl =>
    rcases l with _ | ⟨a, _ | ⟨b, _ | ⟨c, _ | ⟨d, rest⟩⟩⟩⟩
    · rfl
    · rfl
    · rfl
    · rfl
    · exact absurd rfl (hl a b c d rest)

theorem digit_not_sep {c : Char} (h : c.isDigit = true) : isSepChar c = false := by
  cases hs : isSepChar c
  · rfl
  · rw [isSep_not_digit hs] at h
    cases h

theorem list_len_four (l : List Char) (h : l.length = 4) :
    ∃ a b c d : Char, l = [a, b, c, d] := by
  cases l with
  | nil => simp at h
  | cons a t =>
    cases t with
    | nil => simp at h
    | cons b t =>
      cases t with
      | nil => simp at h
      | cons c t =>
        cases t with
        | nil => simp at h
        | cons d t =>
          cases t with
          | nil => exact ⟨a, b, c, d, rfl⟩
          | cons e t => simp at h

set_option maxHeartbeats 1000000 in
theorem ccMatchAt_grouped (prev : Option Char) (g1 g2 g3 g4 s1 s2 s3 post : List Char)
    (hg1 : g1.length = 4 ∧ ∀ c ∈ g1, c.isDigit = true)
    (hg2 : g2.length = 4 ∧ ∀ c ∈ g2, c.isDigit = true)
    (hg3 : g3.length = 4 ∧ ∀ c ∈ g3, c.isDigit = true)
    (hg4 : g4.length = 4 ∧ ∀ c ∈ g4, c.isDigit = true)
    (hs1 : s1 = [] ∨ ∃ c, s1 = [c] ∧ isSepChar c = true)
    (hs2 : s2 = [] ∨ ∃ c, s2 = [c] ∧ isSepChar c = true)
    (hs3 : s3 = [] ∨ ∃ c, s3 = [c] ∧ isSepChar c = true)
    (hprev : isWordOpt prev = false)
    (hpost : isWordOpt post.head? = false) :
    ccMatchAt prev (g1 ++ s1 ++ g2 ++ s2 ++ g3 ++ s3 ++ g4 ++ post) =
      some (16 + s1.length + s2.length + s3.length) := by
  obtain ⟨x1, y1, z1, w1, rfl⟩ := list_len_four g1 hg1.1
  obtain ⟨x2, y2, z2, w2, rfl⟩ := list_len_four g2 hg2.1
  obtain ⟨x3, y3, z3, w3, rfl⟩ := list_len_four g3 hg3.1
  obtain ⟨x4, y4, z4, w4, rfl⟩ := list_len_four g4 hg4.1
  have hx1 := hg1.2 x1 (by simp)
  have hy1 := hg1.2 y1 (by simp)
  have hz1 := hg1.2 z1 (by simp)
  have hw1 := hg1.2 w1 (by simp)
  have hx2 := hg2.2 x2 (by simp)
  have hy2 := hg2.2 y2 (by simp)
  have hz2 := hg2.2 z2 (by simp)
  have hw2 := hg2.2 w2 (by simp)
  have hx3 := hg3.2 x3 (by simp)
  have hy3 := hg3.2 y3 (by simp)
  have hz3 := hg3.2 z3 (by simp)
  have hw3 := hg3.2 w3 (by simp)
  have hx4 := hg4.2 x4 (by simp)
  have hy4 := hg4.2 y4 (by simp)
  have hz4 := hg4.2 z4 (by simp)
  have hw4 := hg4.2 w4 (by simp)
  clear hg1 hg2 hg3 hg4
  rcases hs1 with rfl | ⟨e1, rfl, he1⟩ <;>
    rcases hs2 with rfl | ⟨e2, rfl, he2⟩ <;>
      rcases hs3 with rfl | ⟨e3, rfl, he3⟩ <;>
        (simp [*, ccMatchAt, atBoundary, isWordOpt_some, isWordOpt_none, exactly,
          optClass, litChar, Option.orElse, digit_isWordChar hx1, digit_not_sep hx2,
          digit_not_sep hx3, digit_not_sep hx4]
         and_intros <;> omega)

theorem subGo_match_step (mA : Option Char → List Char → Option Nat) (tok : List Char)
    (f : Nat) (prev : Option Char) (s : List Char) (n : Nat)
    (hs : s ≠ []) (hm : mA prev s = some (n + 1)) :
    subGo mA tok (f + 1) prev s = tok ++ subGo mA tok f
      (match (s.take (n + 1)).getLast? with | some d => some d | none => prev)
      (s.drop (n + 1)) := by
  cases s with
  | nil => exact absurd rfl hs
  | cons c rest => rw [subGo, hm]

theorem searchGo_cons_true (mA : Option Char → List Char → Option Nat)
    (prev : Option Char) (s : List Char) (n : Nat) (hs : s ≠ [])
    (hm : mA prev s = some n) : searchGo mA prev s = true := by
  cases s with
  | nil => exact absurd rfl hs
  | cons c rest =>
    rw [searchGo, hm]
    rfl

theorem ccSearch_full (pre g1 g2 g3 g4 s1 s2 s3 post : List Char)
    (hg1 : g1.length = 4 ∧ ∀ c ∈ g1, c.isDigit = true)
    (hg2 : g2.length = 4 ∧ ∀ c ∈ g2, c.isDigit = true)
    (hg3 : g3.length = 4 ∧ ∀ c ∈ g3, c.isDigit = true)
    (hg4 : g4.length = 4 ∧ ∀ c ∈ g4, c.isDigit = true)
    (hs1 : s1 = [] ∨ ∃ c, s1 = [c] ∧ isSepChar c = true)
    (hs2 : s2 = [] ∨ ∃ c, s2 = [c] ∧ isSepChar c = true)
    (hs3 : s3 = [] ∨ ∃ c, s3 = [c] ∧ isSepChar c = true)
    (hpre : ∀ c ∈ pre, c.isDigit = false)
    (hb1 : isWordOpt (lastPrev none pre) = false)
    (hb2 : isWordOpt post.head? = false) :
    pySearch ccMatchAt (pre ++ (g1 ++ s1 ++ g2 ++ s2 ++ g3 ++ s3 ++ g4 ++ post)) =
      true := by
  rw [pySearch, searchGo_skip_nondigit pre _ none hpre]
  refine searchGo_cons_true _ _ _ _ ?_
    (ccMatchAt_grouped _ g1 g2 g3 g4 s1 s2 s3 post hg1 hg2 hg3 hg4 hs1 hs2 hs3 hb1 hb2)
  intro h0
  have hl := congrArg List.length h0
  simp [hg1.1] at hl

theorem ccSub_full (tok : List Char) (pre g1 g2 g3 g4 s1 s2 s3 post : List Char)
    (hg1 : g1.length = 4 ∧ ∀ c ∈ g1, c.isDigit = true)
    (hg2 : g2.length = 4 ∧ ∀ c ∈ g2, c.isDigit = true)
    (hg3 : g3.length = 4 ∧ ∀ c ∈ g3, c.isDigit = true)
    (hg4 : g4.length = 4 ∧ ∀ c ∈ g4, c.isDigit = true)
    (hs1 : s1 = [] ∨ ∃ c, s1 = [c] ∧ isSepChar c = true)
    (hs2 : s2 = [] ∨ ∃ c, s2 = [c] ∧ isSepChar c = true)
    (hs3 : s3 = [] ∨ ∃ c, s3 = [c] ∧ isSepChar c = true)
    (hpre : ∀ c ∈ pre, c.isDigit = false)
    (hpost : ∀ c ∈ post, c.isDigit = false)
    (hb1 : isWordOpt (lastPrev none pre) = false)
    (hb2 : isWordOpt post.head? = false) :
    pySub ccMatchAt tok (pre ++ (g1 ++ s1 ++ g2 ++ s2 ++ g3 ++ s3 ++ g4 ++ post)) =
      pre ++ (tok ++ post) := by
  have hm := ccMatchAt_grouped (lastPrev none pre) g1 g2 g3 g4 s1 s2 s3 post
    hg1 hg2 hg3 hg4 hs1 hs2 hs3 hb1 hb2
  have hne : g1 ++ s1 ++ g2 ++ s2 ++ g3 ++ s3 ++ g4 ++ post ≠ [] := by
    intro h0
    have hl := congrArg List.length h0
    simp [hg1.1] at hl
  have hlen0 : (g1 ++ s1 ++ g2 ++ s2 ++ g3 ++ s3 ++ g4 ++ post).length =
      (15 + s1.length + s2.length + s3.length) + 1 + post.length := by
    simp [hg1.1, hg2.1, hg3.1, hg4.1]
    omega
  have hm' : ccMatchAt (lastPrev none pre)
      (g1 ++ s1 ++ g2 ++ s2 ++ g3 ++ s3 ++ g4 ++ post) =
      some ((15 + s1.length + s2.length + s3.length) + 1) :=
    hm.trans (congrArg some (by omega))
  rw [pySub]
  rw [subGo_skip_nondigit tok pre _ _ none (by simp) hpre]
  have hfuel : (pre ++ (g1 ++ s1 ++ g2 ++ s2 ++ g3 ++ s3 ++ g4 ++ post)).length -
      pre.length = ((15 + s1.length + s2.length + s3.length) + post.length) + 1 := by
    simp [hg1.1, hg2.1, hg3.1, hg4.1]
    omega
  rw [hfuel]
  rw [subGo_match_step _ tok _ _ _ _ hne hm']
  have hdrop : (g1 ++ s1 ++ g2 ++ s2 ++ g3 ++ s3 ++ g4 ++ post).drop
      ((15 + s1.length + s2.length + s3.length) + 1) = post :=
    List.drop_left' (by simp [hg1.1, hg2.1, hg3.1, hg4.1]; omega)
  rw [hdrop]
  rw [subGo_cc_nodigit tok _ _ _ hpost]

theorem applyPattern_fst_mono (mA : Option Char → List Char → Option Nat)
    (name : String) (acc : Bool × List Char) (h : acc.1 = true) :
    (applyPattern mA name acc).1 = true := by
  rw [applyPattern]
  split
  · rfl
  · exact h

theorem applyPattern_nodigit (mA : Option Char → List Char → Option Nat)
    (name : String) (acc : Bool × List Char)
    (hs : ∀ c ∈ acc.2, c.isDigit = false)
    (htok : ∀ c ∈ ("[" ++ name ++ "_REDACTED]").data, c.isDigit = false) :
    ∀ c ∈ (applyPattern mA name acc).2, c.isDigit = false := by
  rw [applyPattern]
  split
  · exact subGo_nodigit_output mA _ htok _ _ _ hs
  · exact hs
/-- C6 (amended): for every transcript `pre ++ N ++ post` where `N` is a
16-digit number grouped into four 4-digit groups with each separator either
absent or a single `[\s-]` char, `N` sits at word boundaries, and `pre` and
`post` contain no digit characters, the intake sanitizer sets
`contains_sensitive = true` and its output contains no run of 4 or more
consecutive digits — in particular no run of the original number survives. -/
theorem intake_redacts_grouped_card
    (pre g1 g2 g3 g4 s1 s2 s3 post : List Char)
    (hg1 : g1.length = 4 ∧ ∀ c ∈ g1, c.isDigit = true)
    (hg2 : g2.length = 4 ∧ ∀ c ∈ g2, c.isDigit = true)
    (hg3 : g3.length = 4 ∧ ∀ c ∈ g3, c.isDigit = true)
    (hg4 : g4.length = 4 ∧ ∀ c ∈ g4, c.isDigit = true)
    (hs1 : s1 = [] ∨ ∃ c, s1 = [c] ∧ isSepChar c = true)
    (hs2 : s2 = [] ∨ ∃ c, s2 = [c] ∧ isSepChar c = true)
    (hs3 : s3 = [] ∨ ∃ c, s3 = [c] ∧ isSepChar c = true)
    (hpre : ∀ c ∈ pre, c.isDigit = false)
    (hpost : ∀ c ∈ post, c.isDigit = false)
    (hb1 : isWordOpt (lastPrev none pre) = false)
    (hb2 : isWordOpt post.head? = false)
    (fid : String) (st : WState)
    (hraw : st.raw_transcript.data =
      pre ++ (g1 ++ s1 ++ g2 ++ s2 ++ g3 ++ s3 ++ g4 ++ post)) :
    (intake_node fid st).contains_sensitive = true ∧
    hasDigitRun4 (intake_node fid st).sanitized_transcript.data = false := by
  have hsearch := ccSearch_full pre g1 g2 g3 g4 s1 s2 s3 post hg1 hg2 hg3 hg4
    hs1 hs2 hs3 hpre hb1 hb2
  have hsub := ccSub_full "[CREDIT_CARD_REDACTED]".data pre g1 g2 g3 g4 s1 s2 s3 post
    hg1 hg2 hg3 hg4 hs1 hs2 hs3 hpre hpost hb1 hb2
  have hstep1 : applyPattern ccMatchAt "CREDIT_CARD" (false, st.raw_transcript.data) =
      (true, pre ++ ("[CREDIT_CARD_REDACTED]".data ++ post)) := by
    rw [applyPattern]
    simp only [hraw, hsearch, if_true]
    rw [show ("[" ++ "CREDIT_CARD" ++ "_REDACTED]").data =
      "[CREDIT_CARD_REDACTED]".data from rfl, hsub]
  have hroute : sanitizeScan st.raw_transcript.data =
      applyPattern cvvMatchAt "CVV" (applyPattern pwdMatchAt "PASSWORD"
        (applyPattern ssnMatchAt "SSN"
          (true, pre ++ ("[CREDIT_CARD_REDACTED]".data ++ post)))) := by
    rw [sanitizeScan, hstep1]
  have hbase : ∀ c ∈ ((true, pre ++ ("[CREDIT_CARD_REDACTED]".data ++ post)) :
      Bool × List Char).2, c.isDigit = false := by
    intro c hc
    rcases List.mem_append.mp hc with hc' | hc'
    · exact hpre c hc'
    · rcases List.mem_append.mp hc' with hc2 | hc2
      · exact (show ∀ x ∈ "[CREDIT_CARD_REDACTED]".data, x.isDigit = false
          from by decide) c hc2
      · exact hpost c hc2
  constructor
  · show (sanitizeScan st.raw_transcript.data).1 = true
    rw [hroute]
    exact applyPattern_fst_mono _ _ _ (applyPattern_fst_mono _ _ _
      (applyPattern_fst_mono _ _ _ rfl))
  · show hasDigitRun4 (sanitizeScan st.raw_transcript.data).2 = false
    rw [hroute]
    exact hasDigitRun4_eq_false _
      (applyPattern_nodigit _ _ _
        (applyPattern_nodigit _ _ _
          (applyPattern_nodigit _ _ _ hbase (by decide))
          (by decide))
        (by decide))

theorem intake_redacts_grouped_card_witness :
    (intake_node "sid0"
      { raw_transcript := "card 1234 5678 9012 3456 thanks" }).contains_sensitive = true ∧
    hasDigitRun4 (intake_node "sid0"
      { raw_transcript := "card 1234 5678 9012 3456 thanks" }
      ).sanitized_transcript.data = false :=
  intake_redacts_grouped_card "card ".data "1234".data "5678".data "9012".data
    "3456".data [' '] [' '] [' '] " thanks".data
    (by decide) (by decide) (by decide) (by decide)
    (Or.inr ⟨' ', rfl, by decide⟩) (Or.inr ⟨' ', rfl, by decide⟩)
    (Or.inr ⟨' ', rfl, by decide⟩)
    (by decide) (by decide) (by decide) (by decide) "sid0" _ (by decide)

/-- Counterexample to C6 as stated (arbitrary transcripts "containing" a
grouped 16-digit number): in `"7777 8888 9999 1111 2222 3333 4444"` the
space-grouped 16-digit number `"1111 2222 3333 4444"` occurs at word
boundaries, yet the leftmost credit-card match is `"7777 8888 9999 1111"`, so
the sanitized text is `"[CREDIT_CARD_REDACTED] 2222 3333 4444"`:
`contains_sensitive` is true but the runs `2222`, `3333`, `4444` of the
original number survive. -/
theorem intake_redacts_grouped_card_cex :
    ("7777 8888 9999 1111 2222 3333 4444".data =
      "7777 8888 9999 ".data ++
        ("1111".data ++ [' '] ++ "2222".data ++ [' '] ++ "3333".data ++ [' '] ++
          "4444".data ++ ([] : List Char))) ∧
    ((∀ c ∈ ("1111".data : List Char), c.isDigit = true) ∧
     (∀ c ∈ ("2222".data : List Char), c.isDigit = true) ∧
     (∀ c ∈ ("3333".data : List Char), c.isDigit = true) ∧
     (∀ c ∈ ("4444".data : List Char), c.isDigit = true)) ∧
    isWordOpt (lastPrev none "7777 8888 9999 ".data) = false ∧
    (intake_node "sid0"
      { raw_transcript := "7777 8888 9999 1111 2222 3333 4444" }
      ).contains_sensitive = true ∧
    (intake_node "sid0"
      { raw_transcript := "7777 8888 9999 1111 2222 3333 4444" }
      ).sanitized_transcript = "[CREDIT_CARD_REDACTED] 2222 3333 4444" ∧
    hasDigitRun4 (intake_node "sid0"
      { raw_transcript := "7777 8888 9999 1111 2222 3333 4444" }
      ).sanitized_transcript.data = true ∧
    isInfixL "2222".data "1111 2222 3333 4444".data = true := by
  decide


/-! ## C1: the router -/

/-- C1: for every state reaching the router after the confirm node:
`correction_mode = true` routes to `"correction"` regardless of the other
flags; otherwise `needs_clarification = true` ends the turn (pause); otherwise
`ready_to_fill = true` routes to `"output"`; and with all three flags false
the turn ends as the safety default. -/
theorem route_after_confirm_cases :
    (∀ st : WState, st.correction_mode = true →
      route_after_confirm st = .correction) ∧
    (∀ st : WState, st.correction_mode = false → st.needs_clarification = true →
      route_after_confirm st = .endTurn) ∧
    (∀ st : WState, st.correction_mode = false → st.needs_clarification = false →
      st.ready_to_fill = true → route_after_confirm st = .output) ∧
    (∀ st : WState, st.correction_mode = false → st.needs_clarification = false →
      st.ready_to_fill = false → route_after_confirm st = .endTurn) := by
  refine ⟨fun st h => ?_, fun st h1 h2 => ?_, fun st h1 h2 h3 => ?_,
    fun st h1 h2 h3 => ?_⟩
  · simp [route_after_confirm, h]
  · simp [route_after_confirm, h1, h2]
  · simp [route_after_confirm, h1, h2, h3]
  · simp [route_after_confirm, h1, h2, h3]

theorem route_after_confirm_cases_witness :
    route_after_confirm
      { correction_mode := true, needs_clarification := true, ready_to_fill := true } =
      .correction ∧
    route_after_confirm
      { correction_mode := false, needs_clarification := true, ready_to_fill := true } =
      .endTurn ∧
    route_after_confirm
      { correction_mode := false, needs_clarification := false, ready_to_fill := true } =
      .output ∧
    route_after_confirm
      { correction_mode := false, needs_clarification := false, ready_to_fill := false } =
      .endTurn :=
  ⟨route_after_confirm_cases.1 _ rfl,
   route_after_confirm_cases.2.1 _ rfl rfl,
   route_after_confirm_cases.2.2.1 _ rfl rfl rfl,
   route_after_confirm_cases.2.2.2 _ rfl rfl rfl⟩

/-! ## C8: field-name normalization -/

/-- C8: `_normalize_field_name` maps `"Full Name"` to `"name"`, `"lastName"`
to `"last_name"`, `"e-mail"` to `"email"`, and fixes every canonical catalog
key, so it is idempotent on them. -/
theorem normalize_field_name_spec :
    normalize_field_name "Full Name" = "name" ∧
    normalize_field_name "lastName" = "last_name" ∧
    normalize_field_name "e-mail" = "email" ∧
    (["name", "first_name", "last_name", "email", "phone", "address", "city",
      "state", "zip", "country", "company"].all
      fun k => normalize_field_name k == k) = true := by
  decide

/-! ## C9: DOM-grounded matching -/

/-- C9: `_fields_match` matches the extracted key `"email"` against a
`PageField` whose only set attribute is `autocomplete="email"`, and does not
match it against the country `PageField` (`id="country"`, `name="country"`,
`label="Country"`, `autocomplete="country"`): the function — the disjunction
of all four strategies — returns `false` there. -/
theorem fields_match_email_spec :
    fields_match "email" (normalize_field_name "email") "" "" "" "" "email" "" = true ∧
    fields_match "email" (normalize_field_name "email")
      "country" "country" "" "Country" "country" "" = false := by
  decide

/-! ## C2: the confirmation gate -/

/-- C2: outside correction mode, `confirm_node` uses the effective confidence
`confidence_scores.get(k, field.confidence or 0.5)` and sets
`needs_clarification` exactly when some effective confidence is strictly below
0.85 or `missing_fields` is non-empty, with `ready_to_fill` and `confirmed`
both its negation; confidences `[0.9, 0.6]` with nothing missing give
`needs_clarification = true, ready_to_fill = false`, and all confidences
≥ 0.85 with nothing missing give `ready_to_fill = true`. -/
theorem confirm_node_gating :
    (∀ st : WState, st.correction_mode = false →
      (((confirm_node st).needs_clarification = true) ↔
        ((∃ p ∈ st.extracted_fields,
            effectiveConfidence st.confidence_scores p.1 p.2 < CONFIDENCE_THRESHOLD) ∨
          st.missing_fields ≠ [])) ∧
      (confirm_node st).ready_to_fill = !(confirm_node st).needs_clarification ∧
      (confirm_node st).confirmed = !(confirm_node st).needs_clarification) ∧
    ((confirm_node lowConfState).needs_clarification = true ∧
     (confirm_node lowConfState).ready_to_fill = false) ∧
    (confirm_node highConfState).ready_to_fill = true := by
  refine ⟨fun st h => ?_, by decide, by decide⟩
  simp only [confirm_node, h, Bool.false_eq_true, if_false, isEmpty_map_eq]
  refine ⟨?_, trivial, trivial⟩
  simp [Bool.or_eq_true, Bool.not_eq_true', filter_isEmpty_eq_false_iff,
    isEmpty_false_iff, decide_eq_true_iff]

/-! ## C4 / C10: the correction handler -/

/-- C4: when the correction handler applies a correction (the response names a
`corrected_field` that is present, non-null/non-empty and exists in
`extracted_fields`, with a non-empty `new_value`), only that field's `value`,
`confidence` and `source_text` are replaced — its other metadata (the `extra`
keys, e.g. a `selectors` entry) is preserved — and every other field's entry
equals its pre-correction value. -/
theorem correction_node_single_field (resp : CorrectionResponse) (st : WState)
    (k v : String) (fd : FieldData)
    (hk : resp.corrected_field = some k) (hk0 : k ≠ "")
    (hv : resp.new_value = some v) (hv0 : v ≠ "")
    (hex : alookup st.extracted_fields k = some fd)
    (hur : st.user_response ≠ "") :
    alookup (correction_node (.ok resp) st).extracted_fields k =
      some { fd with
             value := v
             confidence := some (resp.confidence.getD (mkRat 9 10))
             source_text := sanitizeCorrection st.user_response } ∧
    ∀ k', k' ≠ k →
      alookup (correction_node (.ok resp) st).extracted_fields k' =
        alookup st.extracted_fields k' := by
  have hfields : (correction_node (.ok resp) st).extracted_fields =
      applyFieldCorrection k v (resp.confidence.getD (mkRat 9 10))
        (sanitizeCorrection st.user_response) st.extracted_fields := by
    simp [correction_node, hur, hk, hv, pyTruthy, hk0, hv0, hex]
  rw [hfields]
  constructor
  · rw [alookup_applyFieldCorrection_self, hex]
    rfl
  · intro k' h
    exact alookup_applyFieldCorrection_other _ _ _ _ _ _ h

theorem correction_node_single_field_witness :
    alookup (correction_node (.ok corrResp) corrState).extracted_fields "email" =
      some { value := "x@y.co", confidence := some (mkRat 95 100),
             source_text := sanitizeCorrection corrState.user_response,
             extra := [("selectors", JVal.arr ["#email"])] } ∧
    alookup (correction_node (.ok corrResp) corrState).extracted_fields "name" =
      alookup corrState.extracted_fields "name" := by
  have h := correction_node_single_field corrResp corrState "email" "x@y.co"
    { value := "a@b.co", confidence := some (mkRat 9 10), source_text := "a@b.co",
      extra := [("selectors", JVal.arr ["#email"])] }
    rfl (by decide) rfl (by decide) (by decide) (by decide)
  exact ⟨h.1, h.2 "name" (by decide)⟩

/-- C10: if the correction response names a `corrected_field` that exists in
`extracted_fields` but its `new_value` is null or the empty string, the
handler changes nothing: `extracted_fields` is left exactly as it was,
`correction_mode` is cleared, and `needs_clarification` is set with the
could-not-identify clarification question. -/
theorem correction_node_empty_value (resp : CorrectionResponse) (st : WState)
    (k : String) (hk : resp.corrected_field = some k)
    (hex : (alookup st.extracted_fields k).isSome = true)
    (hv : resp.new_value = none ∨ resp.new_value = some "")
    (hur : st.user_response ≠ "") :
    (correction_node (.ok resp) st).extracted_fields = st.extracted_fields ∧
    (correction_node (.ok resp) st).correction_mode = false ∧
    (correction_node (.ok resp) st).needs_clarification = true ∧
    (correction_node (.ok resp) st).clarification_question =
      "I couldn\x27t identify which field to correct. Could you be more specific?" := by
  have hnv : pyTruthy resp.new_value = false := by
    rcases hv with h | h <;> simp [h, pyTruthy]
  simp [correction_node, hur, hnv]

theorem correction_node_empty_value_witness :
    (correction_node (.ok corrRespEmptyValue) corrState).extracted_fields =
      corrState.extracted_fields ∧
    (correction_node (.ok corrRespEmptyValue) corrState).correction_mode = false ∧
    (correction_node (.ok corrRespEmptyValue) corrState).needs_clarification = true ∧
    (correction_node (.ok corrRespEmptyValue) corrState).clarification_question =
      "I couldn\x27t identify which field to correct. Could you be more specific?" :=
  correction_node_empty_value corrRespEmptyValue corrState "email" rfl
    (by decide) (Or.inr rfl) (by decide)

/-! ## C5: the extraction failure fallback -/

/-- Every field produced by `_regex_fallback_extract` is one of: an email at
confidence 0.9 or (spoken form) 0.7, a phone at 0.85, or a name at 0.8. -/
theorem regexFallback_confidences (t : String) (p : String × FieldData)
    (hp : p ∈ regex_fallback_extract t) :
    (p.1 = "email" ∧ (p.2.confidence = some (mkRat 9 10) ∨
       p.2.confidence = some (mkRat 7 10))) ∨
    (p.1 = "phone" ∧ p.2.confidence = some (mkRat 85 100)) ∨
    (p.1 = "name" ∧ p.2.confidence = some (mkRat 8 10)) := by
  simp only [regex_fallback_extract] at hp
  rcases List.mem_append.mp hp with h | h
  · rcases List.mem_append.mp h with h' | h'
    · rcases List.mem_append.mp h' with h2 | h2
      · split at h2
        · rw [List.mem_singleton] at h2
          subst h2
          exact Or.inl ⟨rfl, Or.inl rfl⟩
        · cases h2
      · split at h2
        · rw [List.mem_singleton] at h2
          subst h2
          exact Or.inr (Or.inl ⟨rfl, rfl⟩)
        · cases h2
    · split at h'
      · rw [List.mem_singleton] at h'
        subst h'
        exact Or.inr (Or.inr ⟨rfl, rfl⟩)
      · cases h'
  · split at h
    · rw [List.mem_singleton] at h
      subst h
      exact Or.inl ⟨rfl, Or.inr rfl⟩
    · cases h

/-- C5: if the extraction capability call raises (any exception `e`), the
extract node returns normally with: the regex-fallback fields merged over the
existing fields (fallback keys win on lookup), each fallback field being an
email at 0.9, a phone at 0.85, a name at 0.8 or a spoken email at 0.7;
`needs_clarification = true` with the generic retry question; and the failure
cause recorded in `error_message`. -/
theorem extract_node_failure_spec (e : String) (st : WState) :
    (extract_node (.error e) st).needs_clarification = true ∧
    (extract_node (.error e) st).clarification_question =
      "I had trouble understanding. Could you repeat your details?" ∧
    (extract_node (.error e) st).error_message = "LLM extraction failed: " ++ e ∧
    (extract_node (.error e) st).missing_fields =
      st.page_fields.map (fun f => if f.name ≠ "" then f.name else f.id) ∧
    (∀ k, alookup (extract_node (.error e) st).extracted_fields k =
      ((alookup (regex_fallback_extract st.sanitized_transcript) k).orElse
        fun _ => alookup st.extracted_fields k)) ∧
    ∀ p ∈ regex_fallback_extract st.sanitized_transcript,
      (p.1 = "email" ∧ (p.2.confidence = some (mkRat 9 10) ∨
         p.2.confidence = some (mkRat 7 10))) ∨
      (p.1 = "phone" ∧ p.2.confidence = some (mkRat 85 100)) ∨
      (p.1 = "name" ∧ p.2.confidence = some (mkRat 8 10)) :=
  ⟨rfl, rfl, rfl, rfl, fun k => alookup_mergeDict _ _ k,
   fun _ hp => regexFallback_confidences _ _ hp⟩

theorem extract_node_failure_spec_witness :
    (extract_node (.error "boom") fallbackDemoState).needs_clarification = true ∧
    (extract_node (.error "boom") fallbackDemoState).error_message =
      "LLM extraction failed: " ++ "boom" ∧
    alookup (extract_node (.error "boom") fallbackDemoState).extracted_fields "name" =
      ((alookup (regex_fallback_extract fallbackDemoState.sanitized_transcript) "name").orElse
        fun _ => alookup fallbackDemoState.extracted_fields "name") ∧
    (("name", ({ value := "Ahmed Khan", confidence := some (mkRat 8 10), source_text := "my name is Ahmed Khan" } : FieldData)).1 = "email" ∧
      (some (mkRat 8 10) = some (mkRat 9 10) ∨ some (mkRat 8 10) = some (mkRat 7 10)) ∨
     True) := by
  have h := extract_node_failure_spec "boom" fallbackDemoState
  exact ⟨h.1, h.2.2.1, h.2.2.2.2.1 "name", Or.inr trivial⟩

/-! ## C3: the both-flags invariant -/

/-- C3 (amended): the state produced by the confirm node never has
`needs_clarification` and `ready_to_fill` both true, and `correction_mode =
true` makes confirm return both false; the extract node (both branches) and
the correction node never write `ready_to_fill`, so the extract node's failure
fallback — which sets `needs_clarification = true` — leaves `ready_to_fill`
false only when it was false on entry: a `ready_to_fill = true` persisted from
a prior successful turn survives it. -/
theorem node_flag_invariant :
    (∀ st : WState, ¬((confirm_node st).needs_clarification = true ∧
      (confirm_node st).ready_to_fill = true)) ∧
    (∀ st : WState, st.correction_mode = true →
      (confirm_node st).needs_clarification = false ∧
      (confirm_node st).ready_to_fill = false) ∧
    (∀ (e : String) (st : WState),
      (extract_node (.error e) st).ready_to_fill = st.ready_to_fill) ∧
    (∀ (r : ExtractResponse) (st : WState),
      (extract_node (.ok r) st).ready_to_fill = st.ready_to_fill) ∧
    (∀ (r : Except String CorrectionResponse) (st : WState),
      (correction_node r st).ready_to_fill = st.ready_to_fill) ∧
    (∀ (e : String) (st : WState), st.ready_to_fill = false →
      ¬((extract_node (.error e) st).needs_clarification = true ∧
        (extract_node (.error e) st).ready_to_fill = true)) := by
  refine ⟨fun st h => ?_, fun st h => ?_, fun e st => rfl, fun r st => rfl,
    fun r st => ?_, fun e st h hc => ?_⟩
  · obtain ⟨h1, h2⟩ := h
    by_cases hc : st.correction_mode
    · simp [confirm_node, hc] at h1
    · simp only [confirm_node, hc, Bool.false_eq_true, if_false] at h1 h2
      rw [h1] at h2
      simp at h2
  · simp [confirm_node, h]
  · by_cases h : st.user_response = ""
    · simp [correction_node, h]
    · cases r with
      | error e => simp [correction_node, h]
      | ok pr =>
        simp only [correction_node, h, Bool.false_eq_true, if_false]
        split <;> rfl
  · obtain ⟨h1, h2⟩ := hc
    rw [show (extract_node (.error e) st).ready_to_fill = st.ready_to_fill from rfl,
      h] at h2
    cases h2

/-- Counterexample to C3 as stated: after a successful turn (the demo turn 1,
which really routes to output and persists `ready_to_fill = true`), a second
turn on the same session whose extraction call fails produces a state with
`needs_clarification = true` and `ready_to_fill = true` simultaneously. -/
theorem node_flag_invariant_cex :
    turn1AfterConfirm.ready_to_fill = true ∧
    turn1AfterConfirm.needs_clarification = false ∧
    route_after_confirm turn1AfterConfirm = .output ∧
    turn1End.ready_to_fill = true ∧
    turn1End.needs_clarification = false ∧
    turn2AfterExtract.needs_clarification = true ∧
    turn2AfterExtract.ready_to_fill = true := by
  decide

theorem node_flag_invariant_witness :
    (confirm_node lowConfState).needs_clarification = false ∨
    (confirm_node lowConfState).ready_to_fill = false :=
  by
    rcases Bool.eq_false_or_eq_true (confirm_node lowConfState).needs_clarification
      with h | h
    · exact Or.inr (by
        rcases Bool.eq_false_or_eq_true (confirm_node lowConfState).ready_to_fill
          with h2 | h2
        · exact absurd ⟨h, h2⟩ (node_flag_invariant.1 lowConfState)
        · exact h2)
    · exact Or.inl h

theorem confirm_node_gating_witness :
    (((confirm_node lowConfState).needs_clarification = true) ↔
      ((∃ p ∈ lowConfState.extracted_fields,
          effectiveConfidence lowConfState.confidence_scores p.1 p.2 <
            CONFIDENCE_THRESHOLD) ∨
        lowConfState.missing_fields ≠ [])) ∧
    (confirm_node lowConfState).ready_to_fill =
      !(confirm_node lowConfState).needs_clarification ∧
    (confirm_node lowConfState).confirmed =
      !(confirm_node lowConfState).needs_clarification :=
  confirm_node_gating.1 lowConfState rfl

end WebSense
